import Mathlib

/-!
# openssl_evp.c — the EVP sample wrappers

A shallow embedding of `src/openssl/openssl_evp.c`.

* Bytes (`uint8_t`) are natural numbers below 256.
* A pointer argument is modelled by the array it points to (`List Nat`); reading
  `n` bytes from it is `List.take n`, storing bytes at an offset is `writeAt`.
* `size_t` values are natural numbers, `int` values are integers, with `int` 32 bits
  and `size_t` 64 bits wide (LP64); every conversion from `size_t` to `int` (and every
  `int` addition) goes through `toInt`, the two's complement wrap to 32 bits.
* The cryptographic library behind the `EVP_*` calls is not part of the
  repository: it is a parameter (`Engine`), a deterministic state machine on an
  abstract context type.
* A run of a wrapper records the library calls it makes (`Run.trace`) and how
  it stops (`Run.outcome`): by returning a value or in `abort()`.
-/

namespace OpensslEvp

/-! ## Machine integers and buffers -/

/-- Largest value of a C `int` (32 bits). -/
def INT_MAX : Int := 2147483647

/-- Conversion of an integer value to C `int`: two's complement wrap to 32 bits. -/
def toInt (n : Int) : Int := (n + 2147483648) % 4294967296 - 2147483648

/-- Conversion of a C `int` to `size_t` (64 bits), as done by the usual arithmetic
conversions and by passing an `int` for a `size_t` parameter. -/
def toSizeT (n : Int) : Nat := (n % 18446744073709551616).toNat

/-- Store `bytes` into the array `buf` starting at index `off` (`memcpy(buf + off, bytes, |bytes|)`).
In C a store past the end of the array is undefined; here the array grows. -/
def writeAt (buf : List Nat) (off : Nat) (bytes : List Nat) : List Nat :=
  buf.take off ++ bytes ++ buf.drop (off + bytes.length)

/-- The `n` bytes found at a pointer into the array `buf` (`buf[0], …, buf[n-1]`).
In C a load past the end of the array is undefined; here it yields 0. -/
def readBytes (buf : List Nat) (n : Nat) : List Nat :=
  (List.range n).map (fun i => buf.getD i 0)

/-! ## The cryptographic library

`openssl/evp.h` is not part of the repository. The library is a parameter: a
deterministic state machine over an abstract context type. -/

/-- The ciphers the sample names: `EVP_aes_256_ecb()`, …, `EVP_aes_256_gcm()`. -/
inductive Cipher
  | aes_256_ecb
  | aes_256_cbc
  | aes_256_cfb
  | aes_256_ofb
  | aes_256_ctr
  | aes_256_gcm
  deriving DecidableEq

/-- A library call on an `EVP_CIPHER_CTX`, with the arguments the library reads.
A pointer is `none` when the source passes `NULL`. Key and IV are passed without a
length, so the call carries the whole array behind the pointer. The input of an
update is the `inl` bytes found at the input pointer (`inl` is an `int`); `out`
tells whether the output pointer is non-`NULL`. The three `EVP_CTRL_GCM_*`
constructors are `EVP_CIPHER_CTX_ctrl` with that control type and integer argument. -/
inductive Call
  | EVP_EncryptInit_ex (cipher : Option Cipher) (key iv : Option (List Nat))
  | EVP_DecryptInit_ex (cipher : Option Cipher) (key iv : Option (List Nat))
  | EVP_CTRL_GCM_SET_IVLEN (arg : Int)
  | EVP_CTRL_GCM_GET_TAG (arg : Int)
  | EVP_CTRL_GCM_SET_TAG (arg : Int) (tag : List Nat)
  | EVP_EncryptUpdate (out : Bool) (inp : List Nat) (inl : Int)
  | EVP_DecryptUpdate (out : Bool) (inp : List Nat) (inl : Int)
  | EVP_EncryptFinal_ex
  | EVP_DecryptFinal_ex
  deriving DecidableEq

/-- What a library call gives back: its `int` return value and the bytes it stored
through its output pointer. `*outl` is the number of those bytes, an `int`. -/
structure Response where
  status : Int
  out : List Nat
  fits : (out.length : Int) ≤ INT_MAX

/-- The library: `EVP_CIPHER_CTX_new` yields a fresh context or `NULL` (`none`), and
every other call maps the context to a response and the context's next state. -/
structure Engine (σ : Type) where
  EVP_CIPHER_CTX_new : Option σ
  call : σ → Call → Response × σ

/-! ## Runs of the wrappers -/

/-- What a run does that is visible to the library and the process. -/
inductive Event
  | alloc (ok : Bool)
  | call (c : Call) (status : Int)
  | free
  | abort
  deriving DecidableEq

/-- How a run stops: the function returns a value, or the process is ended by `abort()`. -/
inductive Outcome (α : Type)
  | returned (value : α)
  | aborted
  deriving DecidableEq

/-- A run: the events in program order and the way it stops. -/
structure Run (α : Type) where
  trace : List Event
  outcome : Outcome α

/-- The returned value of a run, if the run returns. -/
def Run.value? {α : Type} (r : Run α) : Option α :=
  match r.outcome with
  | .returned v => some v
  | .aborted => none

/-- A run that only returns `a`. -/
def Run.pure {α : Type} (a : α) : Run α := ⟨[], .returned a⟩

/-- Sequencing: the second run happens only if the first one returns. -/
def Run.bind {α β : Type} (r : Run α) (f : α → Run β) : Run β :=
  match r.outcome with
  | .returned a => ⟨r.trace ++ (f a).trace, (f a).outcome⟩
  | .aborted => ⟨r.trace, .aborted⟩

instance : Monad Run where
  pure := Run.pure
  bind := Run.bind

/-- The call `EVP_CIPHER_CTX_new()`. -/
def EVP_CIPHER_CTX_new {σ : Type} (E : Engine σ) : Run (Option σ) :=
  ⟨[.alloc E.EVP_CIPHER_CTX_new.isSome], .returned E.EVP_CIPHER_CTX_new⟩

/-- Any other library call on the context `ctx`: the response and the context afterwards. -/
def EVP {σ : Type} (E : Engine σ) (ctx : σ) (c : Call) : Run (Response × σ) :=
  ⟨[.call c (E.call ctx c).1.status], .returned (E.call ctx c)⟩

/-- The call `EVP_CIPHER_CTX_free(ctx)`. -/
def EVP_CIPHER_CTX_free {σ : Type} (_ctx : σ) : Run Unit :=
  ⟨[.free], .returned ()⟩

/-! ## The wrappers of `openssl_evp.c` -/

/-- The function `handleErrors`: `ERR_print_errors_fp(stderr); abort();`. It never returns. -/
def handleErrors {α : Type} : Run α := ⟨[.abort], .aborted⟩

/-- The function `CheckError`: `if (state != 1) { printf(...); handleErrors(); }`. -/
def CheckError (state : Int) : Run Unit :=
  if state ≠ 1 then handleErrors else pure ()

/-- The function `get_encrypt_ctx(cipher_mode, key, iv)`. -/
def get_encrypt_ctx {σ : Type} (E : Engine σ) (cipher_mode : Cipher) (key iv : List Nat) : Run σ := do
  match ← EVP_CIPHER_CTX_new E with
  | none => handleErrors
  | some ctx =>
    let r ← EVP E ctx (.EVP_EncryptInit_ex (some cipher_mode) (some key) (some iv))
    CheckError r.1.status
    return r.2

/-- The function `get_decrypt_ctx(cipher_mode, key, iv)`. -/
def get_decrypt_ctx {σ : Type} (E : Engine σ) (cipher_mode : Cipher) (key iv : List Nat) : Run σ := do
  match ← EVP_CIPHER_CTX_new E with
  | none => handleErrors
  | some ctx =>
    let r ← EVP E ctx (.EVP_DecryptInit_ex (some cipher_mode) (some key) (some iv))
    CheckError r.1.status
    return r.2

/-- The function `evp_encrypt(ct, pt, pt_len, ctx)`. The result is the returned `size_t`
and the array `ct` after the call. -/
def evp_encrypt {σ : Type} (E : Engine σ) (ct pt : List Nat) (pt_len : Nat) (ctx : σ) :
    Run (Nat × List Nat) := do
  let u ← EVP E ctx (.EVP_EncryptUpdate true (readBytes pt (toInt pt_len).toNat) (toInt pt_len))
  CheckError u.1.status
  let len : Int := u.1.out.length
  let ct := writeAt ct 0 u.1.out
  let ct_len : Nat := toSizeT len
  let f ← EVP E u.2 .EVP_EncryptFinal_ex
  CheckError f.1.status
  let ct := writeAt ct len.toNat f.1.out
  let len : Int := f.1.out.length
  let ct_len : Nat := (ct_len + toSizeT len) % 18446744073709551616
  EVP_CIPHER_CTX_free f.2
  return (ct_len, ct)

/-- The function `evp_decrypt(pt, ct, ct_len, ctx)`. The result is the returned `size_t`
and the array `pt` after the call. -/
def evp_decrypt {σ : Type} (E : Engine σ) (pt ct : List Nat) (ct_len : Nat) (ctx : σ) :
    Run (Nat × List Nat) := do
  let u ← EVP E ctx (.EVP_DecryptUpdate true (readBytes ct (toInt ct_len).toNat) (toInt ct_len))
  CheckError u.1.status
  let len : Int := u.1.out.length
  let pt := writeAt pt 0 u.1.out
  let pt_len : Nat := toSizeT len
  let f ← EVP E u.2 .EVP_DecryptFinal_ex
  CheckError f.1.status
  let pt := writeAt pt len.toNat f.1.out
  let len : Int := f.1.out.length
  let pt_len : Nat := (pt_len + toSizeT len) % 18446744073709551616
  EVP_CIPHER_CTX_free f.2
  return (pt_len, pt)

/-- The function `evp_gcm_encrypt(cipher, plaintext, plaintext_len, aad, aad_len, key, iv,
iv_len, ciphertext, tag)`. The result is the returned `int` and the arrays `ciphertext`
and `tag` after the call. `ciphertext_len += len` is an `int` addition. -/
def evp_gcm_encrypt {σ : Type} (E : Engine σ) (cipher : Cipher)
    (plaintext : List Nat) (plaintext_len : Nat) (aad : List Nat) (aad_len : Nat)
    (key iv : List Nat) (iv_len : Nat) (ciphertext tag : List Nat) :
    Run (Int × List Nat × List Nat) := do
  match ← EVP_CIPHER_CTX_new E with
  | none => handleErrors
  | some ctx =>
    let i ← EVP E ctx (.EVP_EncryptInit_ex (some cipher) none none)
    CheckError i.1.status
    let l ← EVP E i.2 (.EVP_CTRL_GCM_SET_IVLEN (toInt iv_len))
    CheckError l.1.status
    let k ← EVP E l.2 (.EVP_EncryptInit_ex none (some key) (some iv))
    CheckError k.1.status
    let a ← EVP E k.2 (.EVP_EncryptUpdate false (readBytes aad (toInt aad_len).toNat) (toInt aad_len))
    CheckError a.1.status
    let u ← EVP E a.2
      (.EVP_EncryptUpdate true (readBytes plaintext (toInt plaintext_len).toNat) (toInt plaintext_len))
    CheckError u.1.status
    let len : Int := u.1.out.length
    let ciphertext := writeAt ciphertext 0 u.1.out
    let ciphertext_len : Int := len
    let f ← EVP E u.2 .EVP_EncryptFinal_ex
    CheckError f.1.status
    let ciphertext := writeAt ciphertext len.toNat f.1.out
    let len : Int := f.1.out.length
    let ciphertext_len : Int := toInt (ciphertext_len + len)
    let t ← EVP E f.2 (.EVP_CTRL_GCM_GET_TAG 16)
    CheckError t.1.status
    let tag := writeAt tag 0 t.1.out
    EVP_CIPHER_CTX_free t.2
    return (ciphertext_len, ciphertext, tag)

/-- The function `evp_gcm_decrypt(cipher, ciphertext, ciphertext_len, aad, aad_len, tag, key,
iv, iv_len, plaintext)`. The result is the returned `int` and the array `plaintext` after
the call. `plaintext_len += len` is an `int` addition. -/
def evp_gcm_decrypt {σ : Type} (E : Engine σ) (cipher : Cipher)
    (ciphertext : List Nat) (ciphertext_len : Nat) (aad : List Nat) (aad_len : Nat)
    (tag key iv : List Nat) (iv_len : Nat) (plaintext : List Nat) :
    Run (Int × List Nat) := do
  match ← EVP_CIPHER_CTX_new E with
  | none => handleErrors
  | some ctx =>
    let i ← EVP E ctx (.EVP_DecryptInit_ex (some cipher) none none)
    CheckError i.1.status
    let l ← EVP E i.2 (.EVP_CTRL_GCM_SET_IVLEN (toInt iv_len))
    CheckError l.1.status
    let k ← EVP E l.2 (.EVP_DecryptInit_ex none (some key) (some iv))
    CheckError k.1.status
    let a ← EVP E k.2 (.EVP_DecryptUpdate false (readBytes aad (toInt aad_len).toNat) (toInt aad_len))
    CheckError a.1.status
    let u ← EVP E a.2
      (.EVP_DecryptUpdate true (readBytes ciphertext (toInt ciphertext_len).toNat) (toInt ciphertext_len))
    CheckError u.1.status
    let len : Int := u.1.out.length
    let plaintext := writeAt plaintext 0 u.1.out
    let plaintext_len : Int := len
    let t ← EVP E u.2 (.EVP_CTRL_GCM_SET_TAG 16 (readBytes tag 16))
    CheckError t.1.status
    let f ← EVP E t.2 .EVP_DecryptFinal_ex
    let ret : Int := f.1.status
    let plaintext := writeAt plaintext len.toNat f.1.out
    let len : Int := f.1.out.length
    EVP_CIPHER_CTX_free f.2
    if ret > 0 then
      let plaintext_len : Int := toInt (plaintext_len + len)
      return (plaintext_len, plaintext)
    else
      return (-1, plaintext)

/-- The body of `aes_gcm_sample` up to the printing: the fixed vectors, one
`evp_gcm_encrypt` and one `evp_gcm_decrypt`. The result is `ret`, `enc`, `tag` and `dec`. -/
def aes_gcm_sample {σ : Type} (E : Engine σ) : Run (Int × List Nat × List Nat × List Nat) := do
  let key := List.replicate 32 0
  let iv := [0, 1, 2, 3, 4, 5, 6, 7, 8, 9, 10, 11, 12, 13, 14, 0]
  let pt := List.replicate 32 0
  let enc := List.replicate 32 0
  let dec := List.replicate 32 0
  let aad := List.replicate 16 0
  let tag := List.replicate 16 0
  let e ← evp_gcm_encrypt E .aes_256_gcm pt 32 aad 16 key iv 16 enc tag
  let d ← evp_gcm_decrypt E .aes_256_gcm e.2.1 32 aad 16 e.2.2 key iv 16 dec
  return (d.1, e.2.1, e.2.2, d.2)

/-- The cipher part of `aes_evp_sample` (from `get_encrypt_ctx` to `evp_decrypt`), with the
arrays `key`, `iv`, `pt`, `encrypted`, `decrypted` as they are when it starts and the
plaintext length as parameters (in the source `length` is 32 and the two output arrays are
48 zero bytes). `enclen` and `declen` are `int` variables holding the returned `size_t`;
`enclen` is passed on as a `size_t`. The result is `enclen`, `encrypted`, `declen`, `decrypted`. -/
def aes_evp_sample {σ : Type} (E : Engine σ) (cipher : Cipher) (key iv pt : List Nat)
    (length : Nat) (encrypted decrypted : List Nat) : Run (Int × List Nat × Int × List Nat) := do
  let enc_ctx ← get_encrypt_ctx E cipher key iv
  let dec_ctx ← get_decrypt_ctx E cipher key iv
  let e ← evp_encrypt E encrypted pt length enc_ctx
  let enclen : Int := toInt e.1
  let d ← evp_decrypt E decrypted e.2 (toSizeT enclen) dec_ctx
  let declen : Int := toInt d.1
  return (enclen, e.2, declen, d.2)

/-! ## makeSequelData -/

/-- The `for` loop of `makeSequelData`: `for (int i = 0; i < length; ++i) data[i] = (start++);`.
`i` is an `int` compared against the `size_t` `length` after conversion to `size_t`;
`start` is a `uint8_t` and wraps at 256. The first argument bounds the number of
loop tests; `none` means the bound was reached before the loop ended. -/
def makeSequelDataLoop (length : Nat) : Nat → Int → Nat → List Nat → Option (List Nat)
  | 0, _, _, _ => none
  | fuel + 1, i, start, data =>
    if toSizeT i < length then
      makeSequelDataLoop length fuel (toInt (i + 1)) ((start + 1) % 256) (data.set i.toNat start)
    else
      some data

/-- The function `makeSequelData(data, start, length)`; the result is the array `data` after the call. -/
def makeSequelData (fuel : Nat) (data : List Nat) (start : Nat) (length : Nat) : Option (List Nat) :=
  makeSequelDataLoop length fuel 0 start data

/-- A response that stores nothing. -/
def Response.empty (status : Int) : Response := ⟨status, [], by decide⟩

/-! ## The library driven directly

The wrappers never let an argument of a call depend on an earlier response, so each
of them makes a fixed list of calls. These definitions describe the library's side:
what it answers when it is driven through such a list. -/

/-- The library driven through a list of calls: the responses in order and the last context. -/
def Engine.run {σ : Type} (E : Engine σ) : σ → List Call → List Response × σ
  | ctx, [] => ([], ctx)
  | ctx, c :: cs =>
    ((E.call ctx c).1 :: (E.run (E.call ctx c).2 cs).1, (E.run (E.call ctx c).2 cs).2)

/-- Every response of a list reports status 1. -/
def allOk (rs : List Response) : Bool := rs.all (fun r => decide (r.status = 1))

/-- The bytes stored by the `i`-th response of a list. -/
def outAt (rs : List Response) (i : Nat) : List Nat :=
  match rs.get? i with
  | some r => r.out
  | none => []

/-- The calls of a list made in order, each one under `CheckError`. -/
def checkedCalls {σ : Type} (E : Engine σ) : σ → List Call → Run (List Response × σ)
  | ctx, [] => pure ([], ctx)
  | ctx, c :: cs => do
    let r ← EVP E ctx c
    CheckError r.1.status
    let rest ← checkedCalls E r.2 cs
    return (r.1 :: rest.1, rest.2)

/-- The two calls of `evp_encrypt` for the input `inp` of `inl` bytes. -/
def encryptCalls (inp : List Nat) (inl : Int) : List Call :=
  [.EVP_EncryptUpdate true inp inl, .EVP_EncryptFinal_ex]

/-- The two calls of `evp_decrypt` for the input `inp` of `inl` bytes. -/
def decryptCalls (inp : List Nat) (inl : Int) : List Call :=
  [.EVP_DecryptUpdate true inp inl, .EVP_DecryptFinal_ex]

/-- The seven calls of `evp_gcm_encrypt`: cipher init, set IV length, key/IV init, AAD
update, plaintext update, final, get tag. -/
def gcmEncryptCalls (cipher : Cipher) (key iv : List Nat) (ivlen : Int)
    (aad : List Nat) (aadl : Int) (pt : List Nat) (ptl : Int) : List Call :=
  [.EVP_EncryptInit_ex (some cipher) none none, .EVP_CTRL_GCM_SET_IVLEN ivlen,
    .EVP_EncryptInit_ex none (some key) (some iv), .EVP_EncryptUpdate false aad aadl,
    .EVP_EncryptUpdate true pt ptl, .EVP_EncryptFinal_ex, .EVP_CTRL_GCM_GET_TAG 16]

/-- The six calls of `evp_gcm_decrypt` that precede the final call: cipher init, set IV
length, key/IV init, AAD update, ciphertext update, set tag. -/
def gcmDecryptCalls (cipher : Cipher) (key iv : List Nat) (ivlen : Int)
    (aad : List Nat) (aadl : Int) (ct : List Nat) (ctl : Int) (tag : List Nat) : List Call :=
  [.EVP_DecryptInit_ex (some cipher) none none, .EVP_CTRL_GCM_SET_IVLEN ivlen,
    .EVP_DecryptInit_ex none (some key) (some iv), .EVP_DecryptUpdate false aad aadl,
    .EVP_DecryptUpdate true ct ctl, .EVP_CTRL_GCM_SET_TAG 16 tag]

/-- The six calls `evp_gcm_decrypt` makes before the final call, with the arguments it
derives from its parameters: lengths converted to `int`, arrays read up to that length. -/
def evp_gcm_decrypt_calls (cipher : Cipher) (ciphertext : List Nat) (ciphertext_len : Nat)
    (aad : List Nat) (aad_len : Nat) (tag key iv : List Nat) (iv_len : Nat) : List Call :=
  gcmDecryptCalls cipher key iv (toInt iv_len)
    (readBytes aad (toInt aad_len).toNat) (toInt aad_len)
    (readBytes ciphertext (toInt ciphertext_len).toNat) (toInt ciphertext_len) (readBytes tag 16)

/-- The seven calls `evp_gcm_encrypt` makes, with the arguments it derives from its parameters. -/
def evp_gcm_encrypt_calls (cipher : Cipher) (plaintext : List Nat) (plaintext_len : Nat)
    (aad : List Nat) (aad_len : Nat) (key iv : List Nat) (iv_len : Nat) : List Call :=
  gcmEncryptCalls cipher key iv (toInt iv_len)
    (readBytes aad (toInt aad_len).toNat) (toInt aad_len)
    (readBytes plaintext (toInt plaintext_len).toNat) (toInt plaintext_len)

/-- A context of the library initialised for `cipher`, `key`, `iv` by one init call
(`enc` chooses `EVP_EncryptInit_ex` or `EVP_DecryptInit_ex`), if allocation and init succeed. -/
def Engine.session {σ : Type} (E : Engine σ) (enc : Bool) (cipher : Cipher) (key iv : List Nat) :
    Option σ :=
  match E.EVP_CIPHER_CTX_new with
  | none => none
  | some ctx =>
    let r := E.call ctx
      (if enc then .EVP_EncryptInit_ex (some cipher) (some key) (some iv)
        else .EVP_DecryptInit_ex (some cipher) (some key) (some iv))
    if r.1.status = 1 then some r.2 else none

/-- What the library's encrypt update and final produce for the whole input `inp`, if
both report status 1. -/
def Engine.encryptAll {σ : Type} (E : Engine σ) (ctx : σ) (inp : List Nat) : Option (List Nat) :=
  let rs := (E.run ctx (encryptCalls inp inp.length)).1
  if allOk rs then some (outAt rs 0 ++ outAt rs 1) else none

/-- What the library's decrypt update and final produce for the whole input `inp`, if
both report status 1. -/
def Engine.decryptAll {σ : Type} (E : Engine σ) (ctx : σ) (inp : List Nat) : Option (List Nat) :=
  let rs := (E.run ctx (decryptCalls inp inp.length)).1
  if allOk rs then some (outAt rs 0 ++ outAt rs 1) else none

/-- The library's authenticated encryption of `pt` with `aad` on a fresh context `ctx`:
ciphertext (update and final output) and tag, if all seven calls report status 1. -/
def Engine.gcmSeal {σ : Type} (E : Engine σ) (ctx : σ) (cipher : Cipher) (key iv : List Nat)
    (ivlen : Int) (aad pt : List Nat) : Option (List Nat × List Nat) :=
  let rs := (E.run ctx (gcmEncryptCalls cipher key iv ivlen aad aad.length pt pt.length)).1
  if allOk rs then some (outAt rs 4 ++ outAt rs 5, outAt rs 6) else none

/-- The result of the library's authenticated decryption. -/
inductive Opened
  | setupFailed
  | rejected
  | accepted (pt : List Nat)
  deriving DecidableEq

/-- The library's authenticated decryption of `ct` with `aad` and `tag` on a fresh
context `ctx`: `setupFailed` if one of the six calls before the final one does not
report status 1, `rejected` if the final call reports a status `<= 0`, else the bytes
stored by the ciphertext update and the final call. -/
def Engine.gcmOpen {σ : Type} (E : Engine σ) (ctx : σ) (cipher : Cipher) (key iv : List Nat)
    (ivlen : Int) (aad ct tag : List Nat) : Opened :=
  let x := E.run ctx (gcmDecryptCalls cipher key iv ivlen aad aad.length ct ct.length tag)
  if allOk x.1 then
    let f := E.call x.2 .EVP_DecryptFinal_ex
    if f.1.status > 0 then .accepted (outAt x.1 4 ++ f.1.out) else .rejected
  else .setupFailed

/-- The byte `b` with bit `k` flipped. -/
def flipBitOfByte (b k : Nat) : Nat := b ^^^ 2 ^ k

/-- The array `l` with bit `k` of its byte `i` flipped. -/
def flipBit (l : List Nat) (i k : Nat) : List Nat := l.set i (flipBitOfByte (l.getD i 0) k)

/-- The event is a call of `c` (with any status). -/
def Event.isCall (c : Call) : Event → Bool
  | .call d _ => decide (d = c)
  | _ => false

/-- The event is a library call on the context. -/
def Event.usesCtx : Event → Bool
  | .call _ _ => true
  | _ => false

/-- The release discipline a run can have: a run that returns has released the context
exactly once, as its last event (so no call uses the context afterwards), and has not
gone through `abort()`; a run that ends in `abort()` has `abort` as its last event and has
not released the context. -/
def Run.releasedOnReturn {α : Type} (r : Run α) : Prop :=
  match r.outcome with
  | .returned _ => ∃ pre, r.trace = pre ++ [Event.free] ∧ Event.free ∉ pre ∧ Event.abort ∉ pre
  | .aborted => ∃ pre, r.trace = pre ++ [Event.abort] ∧ Event.free ∉ pre ∧ Event.abort ∉ pre

/-! ## A small concrete library

`toy` is a stand-in for the library with the shape of its interface: two-phase
initialisation, `int` lengths, PKCS#7 padding for the two block modes, and a GCM
mode with a 16-byte tag that the final decrypt call verifies. Its byte transform
is a keyed addition modulo 256 and its tag is a checksum; it is used to run the
wrappers on concrete inputs. -/

/-- A response that stores `out`; a store that `*outl` could not count is a failure. -/
def Response.ofBytes (status : Int) (out : List Nat) : Response :=
  if h : (out.length : Int) ≤ INT_MAX then ⟨status, out, h⟩ else Response.empty 0

/-- The state of a `toy` context. -/
structure ToyCtx where
  cipher : Option Cipher
  encrypt : Bool
  ivlen : Nat
  key : Option (List Nat)
  iv : Option (List Nat)
  pos : Nat
  pending : List Nat
  aad : List Nat
  seen : List Nat
  expected : Option (List Nat)
  finished : Bool
  deriving DecidableEq

/-- The context `EVP_CIPHER_CTX_new` of `toy` returns. -/
def ToyCtx.fresh : ToyCtx := ⟨none, true, 12, none, none, 0, [], [], [], none, false⟩

/-- The pad byte `toy` uses at stream position `i`. -/
def toyPad (key iv : List Nat) (i : Nat) : Nat :=
  (key.getD (i % 32) 0 + iv.getD (i % iv.length) 0 + i) % 256

/-- The byte transform of `toy` from stream position `pos` on: add the pad byte to
encrypt, subtract it to decrypt, modulo 256. -/
def toyStream (enc : Bool) (key iv : List Nat) : Nat → List Nat → List Nat
  | _, [] => []
  | pos, b :: bs =>
    (if enc then (b + toyPad key iv pos) % 256 else (b + 256 - toyPad key iv pos) % 256) ::
      toyStream enc key iv (pos + 1) bs

/-- The 16-byte tag of `toy` over the AAD and the ciphertext. -/
def toyTag (key iv aad ct : List Nat) : List Nat :=
  (List.range 16).map (fun j =>
    (key.getD j 0 + iv.getD (j % iv.length) 0 + aad.sum + 3 * ct.sum + aad.length + 5 * ct.length + j) % 256)

/-- Both init calls of `toy`: a cipher resets the context; key and IV are read from the
pointers (32 bytes of key, `ivlen` bytes of IV) when these are not `NULL`. -/
def toyInit (enc : Bool) (s : ToyCtx) (cipher : Option Cipher) (key iv : Option (List Nat)) :
    Response × ToyCtx :=
  let s1 : ToyCtx :=
    match cipher with
    | some c => ⟨some c, enc, if c = .aes_256_gcm then 12 else 16, none, none, 0, [], [], [], none, false⟩
    | none => s
  match s1.cipher with
  | none => (Response.empty 0, s)
  | some _ =>
    (Response.empty 1,
      { s1 with
        encrypt := enc
        key := (key.map (readBytes · 32)).orElse (fun _ => s1.key)
        iv := (iv.map (readBytes · s1.ivlen)).orElse (fun _ => s1.iv)
        pos := 0, pending := [], aad := [], seen := [], finished := false })

/-- Both update calls of `toy`. A negative `inl`, a context without key, the wrong
direction and a finished context fail. With `out = NULL` the input is AAD (GCM only). The
block modes emit whole blocks, the decrypt side holding the last one back. -/
def toyUpdate (enc : Bool) (s : ToyCtx) (out : Bool) (inp : List Nat) (inl : Int) :
    Response × ToyCtx :=
  match s.cipher, s.key, s.iv with
  | some c, some key, some iv =>
    if inl < 0 ∨ s.encrypt ≠ enc ∨ s.finished = true then (Response.empty 0, s)
    else if out = false then
      if c = .aes_256_gcm ∧ s.seen = [] then (Response.empty 1, { s with aad := s.aad ++ inp })
      else (Response.empty 0, s)
    else if c = .aes_256_ecb ∨ c = .aes_256_cbc then
      let data := s.pending ++ inp
      let keep :=
        if enc then data.length % 16
        else if data.length % 16 = 0 then (if data.length = 0 then 0 else 16)
        else data.length % 16
      let n := data.length - keep
      (Response.ofBytes 1 (toyStream enc key iv s.pos (data.take n)),
        { s with pos := s.pos + n, pending := data.drop n })
    else
      let o := toyStream enc key iv s.pos inp
      (Response.ofBytes 1 o,
        { s with pos := s.pos + inp.length, seen := s.seen ++ (if enc then o else inp) })
  | _, _, _ => (Response.empty 0, s)

/-- Both final calls of `toy`. The block modes add, respectively check and strip, the
PKCS#7 padding; GCM decryption succeeds exactly when the installed tag is the tag of
the AAD and ciphertext seen. -/
def toyFinal (enc : Bool) (s : ToyCtx) : Response × ToyCtx :=
  match s.cipher, s.key, s.iv with
  | some c, some key, some iv =>
    if s.encrypt ≠ enc ∨ s.finished = true then (Response.empty 0, s)
    else if c = .aes_256_ecb ∨ c = .aes_256_cbc then
      if enc then
        let pad := 16 - s.pending.length
        (Response.ofBytes 1 (toyStream true key iv s.pos (s.pending ++ List.replicate pad pad)),
          { s with finished := true })
      else
        let p := toyStream false key iv s.pos s.pending
        let v := p.getD 15 0
        if s.pending.length = 16 ∧ 1 ≤ v ∧ v ≤ 16 ∧ p.drop (16 - v) = List.replicate v v then
          (Response.ofBytes 1 (p.take (16 - v)), { s with finished := true })
        else (Response.empty 0, s)
    else if c = .aes_256_gcm ∧ enc = false then
      if s.expected = some (toyTag key iv s.aad s.seen) then
        (Response.empty 1, { s with finished := true })
      else (Response.empty 0, s)
    else (Response.empty 1, { s with finished := true })
  | _, _, _ => (Response.empty 0, s)

/-- The calls of `toy`. -/
def toyCall (s : ToyCtx) : Call → Response × ToyCtx
  | .EVP_EncryptInit_ex cipher key iv => toyInit true s cipher key iv
  | .EVP_DecryptInit_ex cipher key iv => toyInit false s cipher key iv
  | .EVP_CTRL_GCM_SET_IVLEN arg =>
    if s.cipher = some .aes_256_gcm ∧ 0 < arg then (Response.empty 1, { s with ivlen := arg.toNat })
    else (Response.empty 0, s)
  | .EVP_CTRL_GCM_GET_TAG arg =>
    match s.key, s.iv with
    | some key, some iv =>
      if s.cipher = some .aes_256_gcm ∧ s.encrypt = true ∧ s.finished = true ∧ arg = 16 then
        (Response.ofBytes 1 (toyTag key iv s.aad s.seen), s)
      else (Response.empty 0, s)
    | _, _ => (Response.empty 0, s)
  | .EVP_CTRL_GCM_SET_TAG arg tag =>
    if s.cipher = some .aes_256_gcm ∧ s.encrypt = false ∧ arg = 16 then
      (Response.empty 1, { s with expected := some tag })
    else (Response.empty 0, s)
  | .EVP_EncryptUpdate out inp inl => toyUpdate true s out inp inl
  | .EVP_DecryptUpdate out inp inl => toyUpdate false s out inp inl
  | .EVP_EncryptFinal_ex => toyFinal true s
  | .EVP_DecryptFinal_ex => toyFinal false s

/-- The concrete library `toy`; its allocation always succeeds. -/
def toy : Engine ToyCtx := ⟨some ToyCtx.fresh, toyCall⟩

/-- The concrete library `toy` without memory: its allocation fails. -/
def toyNoMemory : Engine ToyCtx := ⟨none, toyCall⟩

/-! ## Theorems -/

theorem toSizeT_natCast (k : Nat) (h : k ≤ 2147483647) : toSizeT (k : Int) = k := by
  unfold toSizeT
  omega

theorem toInt_of_range (n : Int) (h0 : -2147483648 ≤ n) (h1 : n ≤ 2147483647) : toInt n = n := by
  unfold toInt
  omega

theorem makeSequelDataLoop_spec (length : Nat) (hlen : length ≤ 2147483647) :
    ∀ (fuel k start : Nat) (data : List Nat), k ≤ length → length - k < fuel → start < 256 →
      length ≤ data.length →
      ∃ d, makeSequelDataLoop length fuel (k : Int) start data = some d ∧
        d.length = data.length ∧
        (∀ j, j < k → d[j]? = data[j]?) ∧
        (∀ j, k ≤ j → j < length → d[j]? = some ((start + (j - k)) % 256)) ∧
        (∀ j, length ≤ j → d[j]? = data[j]?) := by
  intro fuel
  induction fuel with
  | zero => intro k start data _ h; omega
  | succ fuel ih =>
    intro k start data hk hfuel hstart hdata
    unfold makeSequelDataLoop
    rw [toSizeT_natCast k (by omega)]
    by_cases hlt : k < length
    · rw [if_pos hlt]
      have hwrap : toInt ((k : Int) + 1) = ((k + 1 : Nat) : Int) := by
        rw [toInt_of_range _ (by omega) (by omega)]
        push_cast
        rfl
      rw [hwrap, Int.toNat_ofNat]
      obtain ⟨d, hd, hl, hbefore, hfill, hafter⟩ :=
        ih (k + 1) ((start + 1) % 256) (data.set k start) (by omega) (by omega)
          (Nat.mod_lt _ (by decide)) (by simpa using hdata)
      refine ⟨d, hd, by simpa using hl, ?_, ?_, ?_⟩
      · intro j hj
        rw [hbefore j (by omega), List.getElem?_set_ne (by omega)]
      · intro j hkj hjl
        by_cases hjk : j = k
        · subst hjk
          rw [hbefore j (by omega), List.getElem?_set_self (by omega), Option.some.injEq]
          omega
        · rw [hfill j (by omega) hjl, Option.some.injEq]
          omega
      · intro j hj
        rw [hafter j hj, List.getElem?_set_ne (by omega)]
    · rw [if_neg hlt]
      refine ⟨data, rfl, rfl, fun _ _ => rfl, ?_, fun _ _ => rfl⟩
      intro j hkj hjl
      omega

/-- C10: for every array `data`, start byte `s` and length `n` that does not exceed the
array size and fits an `int`, `makeSequelData(data, s, n)` terminates (any bound above `n`
on the loop tests is enough), leaves `data[i] = (s + i) mod 256` for every `i < n` and
every element at an index `>= n` unchanged; the sample's non-random vectors are
key = 0..31, iv = 32..47, pt = 48..79. -/
theorem makeSequelData_fills (data : List Nat) (s n fuel : Nat)
    (hsize : n ≤ data.length) (hint : (n : Int) ≤ INT_MAX) (hs : s < 256) (hfuel : n < fuel) :
    (∃ d, makeSequelData fuel data s n = some d ∧ d.length = data.length ∧
      (∀ i, i < n → d[i]? = some ((s + i) % 256)) ∧
      (∀ i, n ≤ i → d[i]? = data[i]?)) ∧
    makeSequelData 33 (List.replicate 32 0) 0 32 = some (List.range 32) ∧
    makeSequelData 17 (List.replicate 16 0) 32 16 = some ((List.range 16).map (· + 32)) ∧
    makeSequelData 33 (List.replicate 32 0) 48 32 = some ((List.range 32).map (· + 48)) := by
  refine ⟨?_, by decide, by decide, by decide⟩
  have hn : n ≤ 2147483647 := by
    unfold INT_MAX at hint
    omega
  obtain ⟨d, hd, hl, _, hfill, hafter⟩ :=
    makeSequelDataLoop_spec n hn fuel 0 s data (Nat.zero_le _) (by omega) hs hsize
  refine ⟨d, by simpa [makeSequelData] using hd, hl, ?_, hafter⟩
  intro i hi
  simpa using hfill i (Nat.zero_le _) hi

/-- C10 (witness): three bytes from start byte 254 into a 4-byte array; the byte wraps to 0. -/
theorem makeSequelData_fills_witness :
    (∃ d, makeSequelData 4 [9, 9, 9, 9] 254 3 = some d ∧ d.length = [9, 9, 9, 9].length ∧
      (∀ i, i < 3 → d[i]? = some ((254 + i) % 256)) ∧
      (∀ i, 3 ≤ i → d[i]? = [9, 9, 9, 9][i]?)) ∧
    makeSequelData 4 [9, 9, 9, 9] 254 3 = some [254, 255, 0, 9] :=
  ⟨(makeSequelData_fills [9, 9, 9, 9] 254 3 4 (by decide) (by decide) (by decide) (by decide)).1,
    by decide⟩


/-! ### Runs: sequencing laws and checked call lists -/

instance : LawfulMonad Run := LawfulMonad.mk' Run
  (by
    intro α x
    rcases x with ⟨t, o⟩
    cases o <;> simp [Functor.map, Run.bind, Run.pure])
  (by
    intro α β x f
    simp [bind, Run.bind, pure, Run.pure])
  (by
    intro α β γ x f g
    rcases x with ⟨t, o⟩
    cases o with
    | aborted => simp [bind, Run.bind]
    | returned a =>
      simp only [bind, Run.bind]
      cases h : (f a).outcome <;> simp [h])

theorem allOk_cons (r : Response) (rs : List Response) :
    allOk (r :: rs) = (decide (r.status = 1) && allOk rs) := by
  simp [allOk]

theorem checkedCalls_ok {σ : Type} (E : Engine σ) (cs : List Call) :
    ∀ ctx, allOk (E.run ctx cs).1 = true →
      checkedCalls E ctx cs = ⟨cs.map (fun c => Event.call c 1), .returned (E.run ctx cs)⟩ := by
  induction cs with
  | nil => intro ctx _; rfl
  | cons c cs ih =>
    intro ctx h
    simp only [Engine.run, allOk_cons, Bool.and_eq_true, decide_eq_true_eq] at h
    simp [checkedCalls, Engine.run, bind, Run.bind, EVP, CheckError, h.1, ih _ h.2, pure, Run.pure]

theorem checkedCalls_fail {σ : Type} (E : Engine σ) (cs : List Call) :
    ∀ ctx, allOk (E.run ctx cs).1 = false →
      ∃ pre c post s, cs = pre ++ c :: post ∧ s ≠ 1 ∧
        checkedCalls E ctx cs =
          ⟨pre.map (fun c => Event.call c 1) ++ [Event.call c s, Event.abort], .aborted⟩ := by
  induction cs with
  | nil => intro ctx h; simp [Engine.run, allOk] at h
  | cons c cs ih =>
    intro ctx h
    by_cases h1 : (E.call ctx c).1.status = 1
    · have h2 : allOk (E.run (E.call ctx c).2 cs).1 = false := by
        simpa [Engine.run, allOk_cons, h1] using h
      obtain ⟨pre, d, post, s, hcs, hs, hrun⟩ := ih _ h2
      refine ⟨c :: pre, d, post, s, by simp [hcs], hs, ?_⟩
      simp [checkedCalls, bind, Run.bind, EVP, CheckError, h1, hrun, pure, Run.pure]
    · refine ⟨[], c, cs, (E.call ctx c).1.status, rfl, h1, ?_⟩
      simp [checkedCalls, bind, Run.bind, EVP, CheckError, h1, handleErrors]

/-! ### The wrappers as checked call lists -/

theorem get_encrypt_ctx_eq {σ : Type} (E : Engine σ) (cipher : Cipher) (key iv : List Nat) :
    get_encrypt_ctx E cipher key iv =
      (EVP_CIPHER_CTX_new E >>= fun o =>
        match o with
        | none => handleErrors
        | some ctx =>
          checkedCalls E ctx [.EVP_EncryptInit_ex (some cipher) (some key) (some iv)] >>= fun x =>
          pure x.2) := by
  unfold get_encrypt_ctx
  congr 1
  funext o
  cases o with
  | none => rfl
  | some ctx => simp [checkedCalls]

theorem get_decrypt_ctx_eq {σ : Type} (E : Engine σ) (cipher : Cipher) (key iv : List Nat) :
    get_decrypt_ctx E cipher key iv =
      (EVP_CIPHER_CTX_new E >>= fun o =>
        match o with
        | none => handleErrors
        | some ctx =>
          checkedCalls E ctx [.EVP_DecryptInit_ex (some cipher) (some key) (some iv)] >>= fun x =>
          pure x.2) := by
  unfold get_decrypt_ctx
  congr 1
  funext o
  cases o with
  | none => rfl
  | some ctx => simp [checkedCalls]

theorem evp_encrypt_eq {σ : Type} (E : Engine σ) (ct pt : List Nat) (pt_len : Nat) (ctx : σ) :
    evp_encrypt E ct pt pt_len ctx =
      (checkedCalls E ctx (encryptCalls (readBytes pt (toInt pt_len).toNat) (toInt pt_len)) >>= fun x =>
        EVP_CIPHER_CTX_free x.2 >>= fun _ =>
        pure ((toSizeT (outAt x.1 0).length + toSizeT (outAt x.1 1).length) % 18446744073709551616,
          writeAt (writeAt ct 0 (outAt x.1 0)) (outAt x.1 0).length (outAt x.1 1))) := by
  unfold evp_encrypt
  simp [checkedCalls, encryptCalls, outAt]

theorem evp_decrypt_eq {σ : Type} (E : Engine σ) (pt ct : List Nat) (ct_len : Nat) (ctx : σ) :
    evp_decrypt E pt ct ct_len ctx =
      (checkedCalls E ctx (decryptCalls (readBytes ct (toInt ct_len).toNat) (toInt ct_len)) >>= fun x =>
        EVP_CIPHER_CTX_free x.2 >>= fun _ =>
        pure ((toSizeT (outAt x.1 0).length + toSizeT (outAt x.1 1).length) % 18446744073709551616,
          writeAt (writeAt pt 0 (outAt x.1 0)) (outAt x.1 0).length (outAt x.1 1))) := by
  unfold evp_decrypt
  simp [checkedCalls, decryptCalls, outAt]

theorem evp_gcm_encrypt_eq {σ : Type} (E : Engine σ) (cipher : Cipher)
    (plaintext : List Nat) (plaintext_len : Nat) (aad : List Nat) (aad_len : Nat)
    (key iv : List Nat) (iv_len : Nat) (ciphertext tag : List Nat) :
    evp_gcm_encrypt E cipher plaintext plaintext_len aad aad_len key iv iv_len ciphertext tag =
      (EVP_CIPHER_CTX_new E >>= fun o =>
        match o with
        | none => handleErrors
        | some ctx =>
          checkedCalls E ctx
            (evp_gcm_encrypt_calls cipher plaintext plaintext_len aad aad_len key iv iv_len) >>= fun x =>
          EVP_CIPHER_CTX_free x.2 >>= fun _ =>
          pure (toInt ((outAt x.1 4).length + (outAt x.1 5).length),
            writeAt (writeAt ciphertext 0 (outAt x.1 4)) (outAt x.1 4).length (outAt x.1 5),
            writeAt tag 0 (outAt x.1 6))) := by
  unfold evp_gcm_encrypt
  congr 1
  funext o
  cases o with
  | none => rfl
  | some ctx => simp [checkedCalls, evp_gcm_encrypt_calls, gcmEncryptCalls, outAt]

theorem evp_gcm_decrypt_eq {σ : Type} (E : Engine σ) (cipher : Cipher)
    (ciphertext : List Nat) (ciphertext_len : Nat) (aad : List Nat) (aad_len : Nat)
    (tag key iv : List Nat) (iv_len : Nat) (plaintext : List Nat) :
    evp_gcm_decrypt E cipher ciphertext ciphertext_len aad aad_len tag key iv iv_len plaintext =
      (EVP_CIPHER_CTX_new E >>= fun o =>
        match o with
        | none => handleErrors
        | some ctx =>
          checkedCalls E ctx
            (evp_gcm_decrypt_calls cipher ciphertext ciphertext_len aad aad_len tag key iv iv_len) >>= fun x =>
          EVP E x.2 .EVP_DecryptFinal_ex >>= fun f =>
          EVP_CIPHER_CTX_free f.2 >>= fun _ =>
          if f.1.status > 0 then
            pure (toInt ((outAt x.1 4).length + f.1.out.length),
              writeAt (writeAt plaintext 0 (outAt x.1 4)) (outAt x.1 4).length f.1.out)
          else
            pure (-1, writeAt (writeAt plaintext 0 (outAt x.1 4)) (outAt x.1 4).length f.1.out)) := by
  unfold evp_gcm_decrypt
  congr 1
  funext o
  cases o with
  | none => rfl
  | some ctx => simp [checkedCalls, evp_gcm_decrypt_calls, gcmDecryptCalls, outAt]


/-! ### The three ways `evp_gcm_decrypt` can run -/

theorem evp_gcm_decrypt_run {σ : Type} (E : Engine σ) (cipher : Cipher)
    (ciphertext : List Nat) (ciphertext_len : Nat) (aad : List Nat) (aad_len : Nat)
    (tag key iv : List Nat) (iv_len : Nat) (plaintext : List Nat) :
    (E.EVP_CIPHER_CTX_new = none ∧
      evp_gcm_decrypt E cipher ciphertext ciphertext_len aad aad_len tag key iv iv_len plaintext =
        ⟨[.alloc false, .abort], .aborted⟩) ∨
    (∃ ctx pre c post s, E.EVP_CIPHER_CTX_new = some ctx ∧
      evp_gcm_decrypt_calls cipher ciphertext ciphertext_len aad aad_len tag key iv iv_len =
        pre ++ c :: post ∧ s ≠ 1 ∧
      evp_gcm_decrypt E cipher ciphertext ciphertext_len aad aad_len tag key iv iv_len plaintext =
        ⟨.alloc true :: (pre.map (fun c => Event.call c 1) ++ [.call c s, .abort]), .aborted⟩) ∨
    (∃ ctx, E.EVP_CIPHER_CTX_new = some ctx ∧
      allOk (E.run ctx
        (evp_gcm_decrypt_calls cipher ciphertext ciphertext_len aad aad_len tag key iv iv_len)).1 = true ∧
      ∀ x, x = E.run ctx
          (evp_gcm_decrypt_calls cipher ciphertext ciphertext_len aad aad_len tag key iv iv_len) →
        ∀ f, f = (E.call x.2 .EVP_DecryptFinal_ex).1 →
        evp_gcm_decrypt E cipher ciphertext ciphertext_len aad aad_len tag key iv iv_len plaintext =
          ⟨.alloc true ::
              ((evp_gcm_decrypt_calls cipher ciphertext ciphertext_len aad aad_len tag key iv iv_len).map
                (fun c => Event.call c 1) ++ [.call .EVP_DecryptFinal_ex f.status, .free]),
            .returned
              (if f.status > 0 then toInt ((outAt x.1 4).length + f.out.length) else -1,
                writeAt (writeAt plaintext 0 (outAt x.1 4)) (outAt x.1 4).length f.out)⟩) := by
  rw [evp_gcm_decrypt_eq]
  cases hnew : E.EVP_CIPHER_CTX_new with
  | none =>
    left
    simp [bind, Run.bind, EVP_CIPHER_CTX_new, hnew, handleErrors]
  | some ctx =>
    right
    cases hok : allOk (E.run ctx
        (evp_gcm_decrypt_calls cipher ciphertext ciphertext_len aad aad_len tag key iv iv_len)).1 with
    | false =>
      left
      obtain ⟨pre, c, post, s, hcs, hs, hrun⟩ := checkedCalls_fail E _ ctx hok
      refine ⟨ctx, pre, c, post, s, rfl, hcs, hs, ?_⟩
      simp [bind, Run.bind, EVP_CIPHER_CTX_new, hnew, hrun]
    | true =>
      right
      refine ⟨ctx, rfl, hok, ?_⟩
      intro x hx f hf
      subst hx hf
      by_cases hret : (E.call (E.run ctx
          (evp_gcm_decrypt_calls cipher ciphertext ciphertext_len aad aad_len tag key iv iv_len)).2
            .EVP_DecryptFinal_ex).1.status > 0
      · simp [bind, Run.bind, EVP_CIPHER_CTX_new, hnew, checkedCalls_ok E _ ctx hok, EVP,
          EVP_CIPHER_CTX_free, hret, pure, Run.pure]
      · simp [bind, Run.bind, EVP_CIPHER_CTX_new, hnew, checkedCalls_ok E _ ctx hok, EVP,
          EVP_CIPHER_CTX_free, hret, pure, Run.pure]


theorem getLast?_cons_append_pair {α : Type} (a : α) (l : List α) (x y : α) :
    (a :: (l ++ [x, y])).getLast? = some y := by
  have h : a :: (l ++ [x, y]) = (a :: (l ++ [x])) ++ [y] := by simp
  rw [h, List.getLast?_concat]

theorem outAt_fits (rs : List Response) (i : Nat) : ((outAt rs i).length : Int) ≤ 2147483647 := by
  unfold outAt
  cases rs.get? i with
  | none => simp
  | some r => exact r.fits

theorem toInt_sum_ne_minus_one (a b : Nat) (ha : (a : Int) ≤ 2147483647) (hb : (b : Int) ≤ 2147483647) :
    toInt ((a : Int) + b) ≠ -1 := by
  unfold toInt
  omega

theorem final_not_mem_decrypt_calls (cipher : Cipher) (ciphertext : List Nat) (ciphertext_len : Nat)
    (aad : List Nat) (aad_len : Nat) (tag key iv : List Nat) (iv_len : Nat) :
    Call.EVP_DecryptFinal_ex ∉
      evp_gcm_decrypt_calls cipher ciphertext ciphertext_len aad aad_len tag key iv iv_len := by
  simp [evp_gcm_decrypt_calls, gcmDecryptCalls]

theorem evp_gcm_decrypt_of_ok {σ : Type} (E : Engine σ) (cipher : Cipher)
    (ciphertext : List Nat) (ciphertext_len : Nat) (aad : List Nat) (aad_len : Nat)
    (tag key iv : List Nat) (iv_len : Nat) (plaintext : List Nat) (ctx : σ)
    (hnew : E.EVP_CIPHER_CTX_new = some ctx)
    (hok : allOk (E.run ctx
      (evp_gcm_decrypt_calls cipher ciphertext ciphertext_len aad aad_len tag key iv iv_len)).1 = true) :
    evp_gcm_decrypt E cipher ciphertext ciphertext_len aad aad_len tag key iv iv_len plaintext =
      ⟨.alloc true ::
          ((evp_gcm_decrypt_calls cipher ciphertext ciphertext_len aad aad_len tag key iv iv_len).map
            (fun c => Event.call c 1) ++
            [.call .EVP_DecryptFinal_ex (E.call (E.run ctx (evp_gcm_decrypt_calls cipher ciphertext
              ciphertext_len aad aad_len tag key iv iv_len)).2 .EVP_DecryptFinal_ex).1.status, .free]),
        .returned
          (if (E.call (E.run ctx (evp_gcm_decrypt_calls cipher ciphertext ciphertext_len aad aad_len
              tag key iv iv_len)).2 .EVP_DecryptFinal_ex).1.status > 0 then
            toInt ((outAt (E.run ctx (evp_gcm_decrypt_calls cipher ciphertext ciphertext_len aad
              aad_len tag key iv iv_len)).1 4).length +
              (E.call (E.run ctx (evp_gcm_decrypt_calls cipher ciphertext ciphertext_len aad aad_len
                tag key iv iv_len)).2 .EVP_DecryptFinal_ex).1.out.length)
            else -1,
            writeAt (writeAt plaintext 0 (outAt (E.run ctx (evp_gcm_decrypt_calls cipher ciphertext
              ciphertext_len aad aad_len tag key iv iv_len)).1 4))
              (outAt (E.run ctx (evp_gcm_decrypt_calls cipher ciphertext ciphertext_len aad aad_len
                tag key iv iv_len)).1 4).length
              (E.call (E.run ctx (evp_gcm_decrypt_calls cipher ciphertext ciphertext_len aad aad_len
                tag key iv iv_len)).2 .EVP_DecryptFinal_ex).1.out)⟩ := by
  rcases evp_gcm_decrypt_run E cipher ciphertext ciphertext_len aad aad_len tag key iv iv_len
      plaintext with ⟨hn, _⟩ | ⟨c0, pre, c, post, s, hc0, hcs, hs, hr⟩ | ⟨c0, hc0, _, hr⟩
  · rw [hnew] at hn
    cases hn
  · exfalso
    rw [hnew] at hc0
    cases hc0
    have hrun := checkedCalls_ok E _ ctx hok
    have hout := congrArg Run.outcome hr
    rw [evp_gcm_decrypt_eq] at hout
    simp [bind, Run.bind, EVP_CIPHER_CTX_new, hnew, hrun, EVP, EVP_CIPHER_CTX_free, pure,
      Run.pure] at hout
    split_ifs at hout
  · rw [hnew] at hc0
    cases hc0
    exact hr _ rfl _ rfl

theorem evp_gcm_decrypt_of_not_ok {σ : Type} (E : Engine σ) (cipher : Cipher)
    (ciphertext : List Nat) (ciphertext_len : Nat) (aad : List Nat) (aad_len : Nat)
    (tag key iv : List Nat) (iv_len : Nat) (plaintext : List Nat) (ctx : σ)
    (hnew : E.EVP_CIPHER_CTX_new = some ctx)
    (hbad : allOk (E.run ctx
      (evp_gcm_decrypt_calls cipher ciphertext ciphertext_len aad aad_len tag key iv iv_len)).1 = false) :
    (evp_gcm_decrypt E cipher ciphertext ciphertext_len aad aad_len tag key iv iv_len
      plaintext).outcome = .aborted := by
  rcases evp_gcm_decrypt_run E cipher ciphertext ciphertext_len aad aad_len tag key iv iv_len
      plaintext with ⟨_, hr⟩ | ⟨c0, pre, c, post, s, _, _, _, hr⟩ | ⟨c0, hc0, hok, _⟩
  · rw [hr]
  · rw [hr]
  · rw [hnew] at hc0
    cases hc0
    rw [hbad] at hok
    cases hok

/-- C5: `evp_gcm_decrypt` returns -1 if and only if the context was allocated, each of the six
calls before the final one (cipher init, set IV length, key/IV init, AAD update, ciphertext
update, set tag) returned status 1 and the final call returned a status `<= 0`. A failed
allocation, or an earlier call with a status other than 1, ends the run in `abort()` and is
never reported as -1. Once the six calls have returned 1 the run returns, whatever the
status of the final call, and does not go through `abort()`. The same in terms of the
run's events: -1 is returned exactly when the trace is the allocation, the six calls with
status 1, the final call with a status `<= 0` and the release. -/
theorem evp_gcm_decrypt_minus_one_iff {σ : Type} (E : Engine σ) (cipher : Cipher)
    (ciphertext : List Nat) (ciphertext_len : Nat) (aad : List Nat) (aad_len : Nat)
    (tag key iv : List Nat) (iv_len : Nat) (plaintext : List Nat) :
    ((∃ buf, (evp_gcm_decrypt E cipher ciphertext ciphertext_len aad aad_len tag key iv iv_len
          plaintext).outcome = .returned (-1, buf)) ↔
      ∃ ctx, E.EVP_CIPHER_CTX_new = some ctx ∧
        allOk (E.run ctx (evp_gcm_decrypt_calls cipher ciphertext ciphertext_len aad aad_len tag
          key iv iv_len)).1 = true ∧
        (E.call (E.run ctx (evp_gcm_decrypt_calls cipher ciphertext ciphertext_len aad aad_len tag
          key iv iv_len)).2 .EVP_DecryptFinal_ex).1.status ≤ 0) ∧
    (E.EVP_CIPHER_CTX_new = none →
      (evp_gcm_decrypt E cipher ciphertext ciphertext_len aad aad_len tag key iv iv_len
        plaintext).outcome = .aborted) ∧
    (∀ ctx, E.EVP_CIPHER_CTX_new = some ctx →
      allOk (E.run ctx (evp_gcm_decrypt_calls cipher ciphertext ciphertext_len aad aad_len tag
        key iv iv_len)).1 = false →
      (evp_gcm_decrypt E cipher ciphertext ciphertext_len aad aad_len tag key iv iv_len
        plaintext).outcome = .aborted) ∧
    (∀ ctx, E.EVP_CIPHER_CTX_new = some ctx →
      allOk (E.run ctx (evp_gcm_decrypt_calls cipher ciphertext ciphertext_len aad aad_len tag
        key iv iv_len)).1 = true →
      Event.abort ∉ (evp_gcm_decrypt E cipher ciphertext ciphertext_len aad aad_len tag key iv
        iv_len plaintext).trace ∧
      ∃ buf, (evp_gcm_decrypt E cipher ciphertext ciphertext_len aad aad_len tag key iv iv_len
        plaintext).outcome =
        .returned
          (if (E.call (E.run ctx (evp_gcm_decrypt_calls cipher ciphertext ciphertext_len aad aad_len
              tag key iv iv_len)).2 .EVP_DecryptFinal_ex).1.status > 0 then
            toInt ((outAt (E.run ctx (evp_gcm_decrypt_calls cipher ciphertext ciphertext_len aad
              aad_len tag key iv iv_len)).1 4).length +
              (E.call (E.run ctx (evp_gcm_decrypt_calls cipher ciphertext ciphertext_len aad aad_len
                tag key iv iv_len)).2 .EVP_DecryptFinal_ex).1.out.length)
            else -1, buf)) ∧
    ((∃ buf, (evp_gcm_decrypt E cipher ciphertext ciphertext_len aad aad_len tag key iv iv_len
          plaintext).outcome = .returned (-1, buf)) ↔
      ∃ s, s ≤ 0 ∧
        (evp_gcm_decrypt E cipher ciphertext ciphertext_len aad aad_len tag key iv iv_len
          plaintext).trace =
          .alloc true ::
            ((evp_gcm_decrypt_calls cipher ciphertext ciphertext_len aad aad_len tag key iv iv_len).map
              (fun c => Event.call c 1) ++ [.call .EVP_DecryptFinal_ex s, .free])) ∧
    ((Event.alloc false ∈ (evp_gcm_decrypt E cipher ciphertext ciphertext_len aad aad_len tag key iv
          iv_len plaintext).trace ∨
        ∃ c s, c ≠ Call.EVP_DecryptFinal_ex ∧ s ≠ 1 ∧
          Event.call c s ∈ (evp_gcm_decrypt E cipher ciphertext ciphertext_len aad aad_len tag key iv
            iv_len plaintext).trace) →
      (evp_gcm_decrypt E cipher ciphertext ciphertext_len aad aad_len tag key iv iv_len
        plaintext).outcome = .aborted) ∧
    (∀ s, Event.call .EVP_DecryptFinal_ex s ∈
        (evp_gcm_decrypt E cipher ciphertext ciphertext_len aad aad_len tag key iv iv_len
          plaintext).trace →
      Event.abort ∉ (evp_gcm_decrypt E cipher ciphertext ciphertext_len aad aad_len tag key iv iv_len
          plaintext).trace ∧
      ∃ v, (evp_gcm_decrypt E cipher ciphertext ciphertext_len aad aad_len tag key iv iv_len
          plaintext).outcome = .returned v) := by
  have hfin := final_not_mem_decrypt_calls cipher ciphertext ciphertext_len aad aad_len tag key iv iv_len
  refine ⟨?_, ?_, ?_, ?_, ?_⟩
  · constructor
    · rintro ⟨buf, h⟩
      rcases evp_gcm_decrypt_run E cipher ciphertext ciphertext_len aad aad_len tag key iv iv_len
          plaintext with ⟨_, hr⟩ | ⟨ctx, pre, c, post, s, _, _, _, hr⟩ | ⟨ctx, hnew, hok, hr⟩
      · rw [hr] at h
        cases h
      · rw [hr] at h
        cases h
      · refine ⟨ctx, hnew, hok, ?_⟩
        rw [hr _ rfl _ rfl] at h
        simp only [Outcome.returned.injEq, Prod.mk.injEq] at h
        by_contra hpos
        rw [if_pos (by omega)] at h
        exact toInt_sum_ne_minus_one _ _ (outAt_fits _ _) (Response.fits _) h.1
    · rintro ⟨ctx, hnew, hok, hle⟩
      rw [evp_gcm_decrypt_of_ok E cipher ciphertext ciphertext_len aad aad_len tag key iv iv_len
        plaintext ctx hnew hok, if_neg (by omega)]
      exact ⟨_, rfl⟩
  · intro hnone
    rcases evp_gcm_decrypt_run E cipher ciphertext ciphertext_len aad aad_len tag key iv iv_len
        plaintext with ⟨_, hr⟩ | ⟨ctx, pre, c, post, s, _, _, _, hr⟩ | ⟨ctx, hnew, _, _⟩
    · rw [hr]
    · rw [hr]
    · rw [hnone] at hnew
      cases hnew
  · intro ctx hnew hbad
    exact evp_gcm_decrypt_of_not_ok E cipher ciphertext ciphertext_len aad aad_len tag key iv iv_len
      plaintext ctx hnew hbad
  · intro ctx hnew hok
    rw [evp_gcm_decrypt_of_ok E cipher ciphertext ciphertext_len aad aad_len tag key iv iv_len
      plaintext ctx hnew hok]
    exact ⟨by simp, _, rfl⟩
  rcases evp_gcm_decrypt_run E cipher ciphertext ciphertext_len aad aad_len tag key iv iv_len
      plaintext with ⟨_, hr⟩ | ⟨ctx, pre, c, post, s, _, hcs, hs, hr⟩ | ⟨ctx, _, _, hr⟩
  · rw [hr]
    simp
  · rw [hr]
    rw [hcs] at hfin
    refine ⟨?_, fun _ => rfl, ?_⟩
    · constructor
      · rintro ⟨buf, h⟩
        cases h
      · rintro ⟨s', _, h⟩
        have := congrArg List.getLast? h
        simp only [getLast?_cons_append_pair] at this
        cases this
    · intro s' h
      exfalso
      simp only [List.mem_cons, List.mem_append, List.mem_map, List.mem_singleton,
        List.not_mem_nil, or_false] at h hfin
      rcases h with h | ⟨d, hd, h⟩ | h | h
      · cases h
      · cases h
        exact hfin (Or.inl hd)
      · cases h
        exact hfin (Or.inr (Or.inl rfl))
      · cases h
  · have hr := hr _ rfl _ rfl
    rw [hr]
    refine ⟨?_, ?_, ?_⟩
    · constructor
      · rintro ⟨buf, h⟩
        simp only [Outcome.returned.injEq, Prod.mk.injEq] at h
        refine ⟨_, ?_, rfl⟩
        by_contra hpos
        rw [if_pos (by omega)] at h
        exact toInt_sum_ne_minus_one _ _ (outAt_fits _ _) (Response.fits _) h.1
      · rintro ⟨s', hs', h⟩
        simp only [List.cons.injEq, true_and, List.append_cancel_left_eq, Event.call.injEq,
          and_true] at h
        rw [h, if_neg (by omega)]
        exact ⟨_, rfl⟩
    · rintro (h | ⟨c, s', hc, hs', h⟩)
      · simp at h
      · exfalso
        simp only [List.mem_cons, List.mem_append, List.mem_map, List.mem_singleton,
          List.not_mem_nil, or_false] at h
        rcases h with h | ⟨d, _, h⟩ | h | h
        · cases h
        · cases h
          exact hs' rfl
        · cases h
          exact hc rfl
        · cases h
    · intro s' _
      exact ⟨by simp, _, rfl⟩

/-- C9: in every run of `evp_gcm_decrypt` the final (verifying) call occurs at most once,
and wherever it occurs an earlier event of the run is the set-tag control call carrying
the 16 bytes of the caller's tag and answered with status 1. -/
theorem evp_gcm_decrypt_tag_before_final {σ : Type} (E : Engine σ) (cipher : Cipher)
    (ciphertext : List Nat) (ciphertext_len : Nat) (aad : List Nat) (aad_len : Nat)
    (tag key iv : List Nat) (iv_len : Nat) (plaintext : List Nat) :
    (((evp_gcm_decrypt E cipher ciphertext ciphertext_len aad aad_len tag key iv iv_len
        plaintext).trace.filter (Event.isCall .EVP_DecryptFinal_ex)).length ≤ 1) ∧
    ∀ (i : Nat) (s : Int), (evp_gcm_decrypt E cipher ciphertext ciphertext_len aad aad_len tag key iv iv_len
        plaintext).trace[i]? = some (Event.call Call.EVP_DecryptFinal_ex s) →
      ∃ j, j < i ∧
        (evp_gcm_decrypt E cipher ciphertext ciphertext_len aad aad_len tag key iv iv_len
          plaintext).trace[j]? =
          some (Event.call (Call.EVP_CTRL_GCM_SET_TAG 16 (readBytes tag 16)) 1) := by
  have hfin := final_not_mem_decrypt_calls cipher ciphertext ciphertext_len aad aad_len tag key iv iv_len
  rcases evp_gcm_decrypt_run E cipher ciphertext ciphertext_len aad aad_len tag key iv iv_len
      plaintext with ⟨_, hr⟩ | ⟨ctx, pre, c, post, s, _, hcs, hs, hr⟩ | ⟨ctx, _, _, hr⟩
  · rw [hr]
    refine ⟨by simp [Event.isCall], ?_⟩
    intro i s h
    have hm := List.getElem?_mem h
    simp at hm
  · rw [hr]
    rw [hcs] at hfin
    have hno : ∀ e ∈ Event.alloc true ::
        (pre.map (fun c => Event.call c 1) ++ [Event.call c s, Event.abort]),
        Event.isCall .EVP_DecryptFinal_ex e = false := by
      intro e he
      simp only [List.mem_cons, List.mem_append, List.mem_map, List.mem_singleton,
        List.not_mem_nil, or_false] at he hfin
      rcases he with he | ⟨d, hd, he⟩ | he | he
      · subst he; rfl
      · subst he
        simp only [Event.isCall, decide_eq_false_iff_not]
        rintro rfl
        exact hfin (Or.inl hd)
      · subst he
        simp only [Event.isCall, decide_eq_false_iff_not]
        rintro rfl
        exact hfin (Or.inr (Or.inl rfl))
      · subst he; rfl
    constructor
    · have : List.filter (Event.isCall .EVP_DecryptFinal_ex) (Event.alloc true ::
          (pre.map (fun c => Event.call c 1) ++ [Event.call c s, Event.abort])) = [] := by
        rw [List.filter_eq_nil_iff]
        intro e he
        simp [hno e he]
      simp only [this, List.length_nil, Nat.zero_le]
    · intro i s' h
      have := hno _ (List.getElem?_mem h)
      simp [Event.isCall] at this
  · have hr := hr _ rfl _ rfl
    rw [hr]
    simp only [evp_gcm_decrypt_calls, gcmDecryptCalls, List.map_cons, List.map_nil,
      List.cons_append, List.nil_append]
    refine ⟨by simp [Event.isCall], ?_⟩
    intro i s h
    refine ⟨6, ?_, rfl⟩
    rcases i with _ | _ | _ | _ | _ | _ | _ | i
    all_goals first | omega | simp at h


/-! ### Release of the context -/

theorem checkedCalls_then_free_released {σ α : Type} (E : Engine σ) (ctx : σ) (cs : List Call)
    (g : List Response × σ → α) :
    (checkedCalls E ctx cs >>= fun x => EVP_CIPHER_CTX_free x.2 >>= fun _ => pure (g x)).releasedOnReturn := by
  cases hok : allOk (E.run ctx cs).1 with
  | true =>
    simp only [checkedCalls_ok E cs ctx hok, bind, Run.bind, EVP_CIPHER_CTX_free, pure, Run.pure,
      Run.releasedOnReturn, List.append_nil]
    exact ⟨_, rfl, by simp, by simp⟩
  | false =>
    obtain ⟨pre, c, post, s, _, _, hrun⟩ := checkedCalls_fail E cs ctx hok
    simp only [hrun, bind, Run.bind, Run.releasedOnReturn]
    exact ⟨pre.map (fun c => Event.call c 1) ++ [Event.call c s], by simp, by simp, by simp⟩

theorem alloc_then_released {σ α : Type} (E : Engine σ) (body : σ → Run α)
    (h : ∀ ctx, (body ctx).releasedOnReturn) :
    (EVP_CIPHER_CTX_new E >>= fun o =>
      match o with
      | none => handleErrors
      | some ctx => body ctx).releasedOnReturn := by
  cases hnew : E.EVP_CIPHER_CTX_new with
  | none =>
    simp only [bind, Run.bind, EVP_CIPHER_CTX_new, hnew, handleErrors, Run.releasedOnReturn]
    exact ⟨[Event.alloc false], rfl, by simp, by simp⟩
  | some ctx =>
    have hb := h ctx
    simp only [bind, Run.bind, EVP_CIPHER_CTX_new, hnew, Run.releasedOnReturn] at hb ⊢
    cases ho : (body ctx).outcome with
    | returned v =>
      rw [ho] at hb
      obtain ⟨pre, hp, h1, h2⟩ := hb
      simp only [Option.isSome_some, List.singleton_append]
      exact ⟨Event.alloc true :: pre, by simp [hp], by simp [h1], by simp [h2]⟩
    | aborted =>
      rw [ho] at hb
      obtain ⟨pre, hp, h1, h2⟩ := hb
      simp only [Option.isSome_some, List.singleton_append]
      exact ⟨Event.alloc true :: pre, by simp [hp], by simp [h1], by simp [h2]⟩

/-- C8 (as amended): in each of `evp_encrypt`, `evp_decrypt`, `evp_gcm_encrypt` and
`evp_gcm_decrypt`, a run that returns (the authentication-failure return of
`evp_gcm_decrypt` included) has released the context exactly once, as its last event, so
the context is never used after its release; a run in which a check fails ends in
`abort()` as its last event, without a release. -/
theorem wrappers_release_on_return {σ : Type} (E : Engine σ) (cipher : Cipher)
    (out inp : List Nat) (len : Nat) (ctx : σ) (aad : List Nat) (aad_len : Nat)
    (key iv tag : List Nat) (iv_len : Nat) (out2 : List Nat) :
    (evp_encrypt E out inp len ctx).releasedOnReturn ∧
    (evp_decrypt E out inp len ctx).releasedOnReturn ∧
    (evp_gcm_encrypt E cipher inp len aad aad_len key iv iv_len out out2).releasedOnReturn ∧
    (evp_gcm_decrypt E cipher inp len aad aad_len tag key iv iv_len out).releasedOnReturn := by
  refine ⟨?_, ?_, ?_, ?_⟩
  · rw [evp_encrypt_eq]
    exact checkedCalls_then_free_released E ctx _ _
  · rw [evp_decrypt_eq]
    exact checkedCalls_then_free_released E ctx _ _
  · rw [evp_gcm_encrypt_eq]
    exact alloc_then_released E _ (fun c => checkedCalls_then_free_released E c _ _)
  · rcases evp_gcm_decrypt_run E cipher inp len aad aad_len tag key iv iv_len out with
      ⟨_, hr⟩ | ⟨c0, pre, c, post, s, _, _, _, hr⟩ | ⟨c0, _, _, hr⟩
    · rw [hr]
      exact ⟨[Event.alloc false], rfl, by simp, by simp⟩
    · rw [hr]
      exact ⟨Event.alloc true :: (pre.map (fun c => Event.call c 1) ++ [Event.call c s]),
        by simp, by simp, by simp⟩
    · rw [hr _ rfl _ rfl]
      exact ⟨Event.alloc true :: ((evp_gcm_decrypt_calls cipher inp len aad aad_len tag key iv
        iv_len).map (fun c => Event.call c 1) ++ [Event.call .EVP_DecryptFinal_ex
          (E.call (E.run c0 (evp_gcm_decrypt_calls cipher inp len aad aad_len tag key iv
            iv_len)).2 .EVP_DecryptFinal_ex).1.status]),
        by simp, by simp, by simp⟩

/-- C8 (counterexample): `evp_gcm_encrypt` called with `iv_len = 0` allocates its context,
the set-IV-length call reports status 0, and the run ends in `abort()` with no release of
the context. -/
theorem evp_gcm_encrypt_abort_without_release :
    (evp_gcm_encrypt toy .aes_256_gcm [1, 2, 3] 3 [] 0 (List.replicate 32 0) (List.replicate 16 0) 0
        [0, 0, 0] (List.replicate 16 0)).trace =
      [.alloc true, .call (.EVP_EncryptInit_ex (some .aes_256_gcm) none none) 1,
        .call (.EVP_CTRL_GCM_SET_IVLEN 0) 0, .abort] ∧
    Event.free ∉ (evp_gcm_encrypt toy .aes_256_gcm [1, 2, 3] 3 [] 0 (List.replicate 32 0)
        (List.replicate 16 0) 0 [0, 0, 0] (List.replicate 16 0)).trace := by
  decide


/-! ### The caller's buffer after `evp_gcm_decrypt` -/

theorem writeAt_twice (p u f : List Nat) :
    writeAt (writeAt p 0 u) u.length f = u ++ f ++ p.drop (u.length + f.length) := by
  simp [writeAt, Nat.add_comm]

/-- C4 (as amended): when `evp_gcm_decrypt` returns -1 it returns no plaintext length, and
the caller's plaintext array holds the bytes the library stored during the ciphertext
update and the final call, followed by the bytes of the array the library did not
overwrite; only those later bytes are as before the call. -/
theorem evp_gcm_decrypt_failure_buffer {σ : Type} (E : Engine σ) (cipher : Cipher)
    (ciphertext : List Nat) (ciphertext_len : Nat) (aad : List Nat) (aad_len : Nat)
    (tag key iv : List Nat) (iv_len : Nat) (plaintext buf : List Nat)
    (h : (evp_gcm_decrypt E cipher ciphertext ciphertext_len aad aad_len tag key iv iv_len
      plaintext).outcome = .returned (-1, buf)) :
    ∃ ctx stored, E.EVP_CIPHER_CTX_new = some ctx ∧
      stored =
        outAt (E.run ctx (evp_gcm_decrypt_calls cipher ciphertext ciphertext_len aad aad_len tag
            key iv iv_len)).1 4 ++
          (E.call (E.run ctx (evp_gcm_decrypt_calls cipher ciphertext ciphertext_len aad aad_len
            tag key iv iv_len)).2 .EVP_DecryptFinal_ex).1.out ∧
      buf = stored ++ plaintext.drop stored.length := by
  rcases evp_gcm_decrypt_run E cipher ciphertext ciphertext_len aad aad_len tag key iv iv_len
      plaintext with ⟨_, hr⟩ | ⟨ctx, pre, c, post, s, _, _, _, hr⟩ | ⟨ctx, hnew, _, hr⟩
  · rw [hr] at h
    cases h
  · rw [hr] at h
    cases h
  · rw [hr _ rfl _ rfl] at h
    simp only [Outcome.returned.injEq, Prod.mk.injEq] at h
    refine ⟨ctx, _, hnew, rfl, ?_⟩
    rw [← h.2, writeAt_twice, List.length_append]


/-- C4 (counterexample): `toy` encrypts `[10, 20, 30, 40]` to `[13, 24, 35, 46]` with a tag;
decrypting that ciphertext with bit 0 of the tag's first byte flipped returns -1, yet the
caller's array `[9, 9, 9, 9, 9]` has become `[10, 20, 30, 40, 9]`: it holds the decrypted
bytes. -/
theorem evp_gcm_decrypt_failure_overwrites_buffer :
    (evp_gcm_encrypt toy .aes_256_gcm [10, 20, 30, 40] 4 [7] 1 (List.replicate 32 1)
        (List.replicate 16 2) 16 [0, 0, 0, 0] (List.replicate 16 0)).value? =
      some (4, [13, 24, 35, 46],
        [129, 130, 131, 132, 133, 134, 135, 136, 137, 138, 139, 140, 141, 142, 143, 144]) ∧
    (evp_gcm_decrypt toy .aes_256_gcm [13, 24, 35, 46] 4 [7] 1
        (flipBit [129, 130, 131, 132, 133, 134, 135, 136, 137, 138, 139, 140, 141, 142, 143, 144] 0 0)
        (List.replicate 32 1) (List.replicate 16 2) 16 [9, 9, 9, 9, 9]).value? =
      some (-1, [10, 20, 30, 40, 9]) ∧
    [10, 20, 30, 40, 9] ≠ [9, 9, 9, 9, 9] := by
  decide

/-- C4 (witness): the amended statement at the counterexample's input. -/
theorem evp_gcm_decrypt_failure_buffer_witness :
    (evp_gcm_decrypt toy .aes_256_gcm [13, 24, 35, 46] 4 [7] 1
        (flipBit [129, 130, 131, 132, 133, 134, 135, 136, 137, 138, 139, 140, 141, 142, 143, 144] 0 0)
        (List.replicate 32 1) (List.replicate 16 2) 16 [9, 9, 9, 9, 9]).outcome =
      .returned (-1, [10, 20, 30, 40, 9]) ∧
    ∃ ctx stored, toy.EVP_CIPHER_CTX_new = some ctx ∧
      stored =
        outAt (toy.run ctx (evp_gcm_decrypt_calls .aes_256_gcm [13, 24, 35, 46] 4 [7] 1
            (flipBit [129, 130, 131, 132, 133, 134, 135, 136, 137, 138, 139, 140, 141, 142, 143, 144] 0 0)
            (List.replicate 32 1) (List.replicate 16 2) 16)).1 4 ++
          (toy.call (toy.run ctx (evp_gcm_decrypt_calls .aes_256_gcm [13, 24, 35, 46] 4 [7] 1
            (flipBit [129, 130, 131, 132, 133, 134, 135, 136, 137, 138, 139, 140, 141, 142, 143, 144] 0 0)
            (List.replicate 32 1) (List.replicate 16 2) 16)).2
              .EVP_DecryptFinal_ex).1.out ∧
      [10, 20, 30, 40, 9] = stored ++ [9, 9, 9, 9, 9].drop stored.length :=
  ⟨by decide,
    evp_gcm_decrypt_failure_buffer toy .aes_256_gcm [13, 24, 35, 46] 4 [7] 1
      (flipBit [129, 130, 131, 132, 133, 134, 135, 136, 137, 138, 139, 140, 141, 142, 143, 144] 0 0)
      (List.replicate 32 1) (List.replicate 16 2) 16 [9, 9, 9, 9, 9]
      [10, 20, 30, 40, 9] (by decide)⟩

/-! ### Reading back what was stored; lengths that fit an `int` -/

theorem readBytes_length (buf : List Nat) (n : Nat) : (readBytes buf n).length = n := by
  simp [readBytes]

theorem readBytes_append_length (l r : List Nat) : readBytes (l ++ r) l.length = l := by
  apply List.ext_getElem
  · simp [readBytes]
  · intro i h1 h2
    simp [readBytes, List.getD_eq_getElem?_getD, List.getElem?_append_left h2, h2]

theorem readBytes_self (l : List Nat) : readBytes l l.length = l := by
  simpa using readBytes_append_length l []

theorem toInt_natCast (n : Nat) (h : (n : Int) ≤ INT_MAX) : toInt (n : Int) = n := by
  unfold INT_MAX at h
  unfold toInt
  omega

theorem toSizeT_natCast_fits (n : Nat) (h : (n : Int) ≤ INT_MAX) : toSizeT (n : Int) = n := by
  unfold INT_MAX at h
  unfold toSizeT
  omega


/-! ### The three ways `evp_gcm_encrypt` can run -/

theorem evp_gcm_encrypt_run {σ : Type} (E : Engine σ) (cipher : Cipher)
    (plaintext : List Nat) (plaintext_len : Nat) (aad : List Nat) (aad_len : Nat)
    (key iv : List Nat) (iv_len : Nat) (ciphertext tag : List Nat) :
    (E.EVP_CIPHER_CTX_new = none ∧
      evp_gcm_encrypt E cipher plaintext plaintext_len aad aad_len key iv iv_len ciphertext tag =
        ⟨[.alloc false, .abort], .aborted⟩) ∨
    (∃ ctx, E.EVP_CIPHER_CTX_new = some ctx ∧
      allOk (E.run ctx
        (evp_gcm_encrypt_calls cipher plaintext plaintext_len aad aad_len key iv iv_len)).1 = false ∧
      (evp_gcm_encrypt E cipher plaintext plaintext_len aad aad_len key iv iv_len ciphertext
        tag).outcome = .aborted) ∨
    (∃ ctx, E.EVP_CIPHER_CTX_new = some ctx ∧
      allOk (E.run ctx
        (evp_gcm_encrypt_calls cipher plaintext plaintext_len aad aad_len key iv iv_len)).1 = true ∧
      ∀ rs, rs = (E.run ctx
          (evp_gcm_encrypt_calls cipher plaintext plaintext_len aad aad_len key iv iv_len)).1 →
        evp_gcm_encrypt E cipher plaintext plaintext_len aad aad_len key iv iv_len ciphertext tag =
          ⟨.alloc true ::
              ((evp_gcm_encrypt_calls cipher plaintext plaintext_len aad aad_len key iv iv_len).map
                (fun c => Event.call c 1) ++ [.free]),
            .returned (toInt ((outAt rs 4).length + (outAt rs 5).length),
              writeAt (writeAt ciphertext 0 (outAt rs 4)) (outAt rs 4).length (outAt rs 5),
              writeAt tag 0 (outAt rs 6))⟩) := by
  rw [evp_gcm_encrypt_eq]
  cases hnew : E.EVP_CIPHER_CTX_new with
  | none =>
    left
    simp [bind, Run.bind, EVP_CIPHER_CTX_new, hnew, handleErrors]
  | some ctx =>
    right
    cases hok : allOk (E.run ctx
        (evp_gcm_encrypt_calls cipher plaintext plaintext_len aad aad_len key iv iv_len)).1 with
    | false =>
      left
      obtain ⟨pre, c, post, s, _, _, hrun⟩ := checkedCalls_fail E _ ctx hok
      refine ⟨ctx, rfl, hok, ?_⟩
      simp [bind, Run.bind, EVP_CIPHER_CTX_new, hnew, hrun]
    | true =>
      right
      refine ⟨ctx, rfl, hok, ?_⟩
      intro rs hrs
      subst hrs
      simp [bind, Run.bind, EVP_CIPHER_CTX_new, hnew, checkedCalls_ok E _ ctx hok,
        EVP_CIPHER_CTX_free, pure, Run.pure]

/-! ### Lengths returned by the GCM wrappers -/

/-- C6 (as amended): for a plaintext length and a ciphertext length of at most `INT_MAX`,
and a library whose data update stores as many bytes as it is handed and whose final call
stores none, `evp_gcm_encrypt` returns `plaintext_len` whenever it returns (and it returns
when all its calls report status 1), and `evp_gcm_decrypt` returns `ciphertext_len`
whenever it returns something other than -1 (and it does so when its six first calls
report status 1 and the final call a positive status). -/
theorem gcm_lengths_preserved {σ : Type} (E : Engine σ) (cipher : Cipher)
    (plaintext : List Nat) (plaintext_len : Nat) (ciphertext : List Nat) (ciphertext_len : Nat)
    (aad : List Nat) (aad_len : Nat) (key iv : List Nat) (iv_len : Nat)
    (tagIn encOut tagOut decOut : List Nat) (ctx : σ)
    (hnew : E.EVP_CIPHER_CTX_new = some ctx)
    (hpl : (plaintext_len : Int) ≤ INT_MAX)
    (hcl : (ciphertext_len : Int) ≤ INT_MAX)
    (heu : (outAt (E.run ctx
        (evp_gcm_encrypt_calls cipher plaintext plaintext_len aad aad_len key iv iv_len)).1 4).length =
      (readBytes plaintext (toInt plaintext_len).toNat).length)
    (hef : outAt (E.run ctx
        (evp_gcm_encrypt_calls cipher plaintext plaintext_len aad aad_len key iv iv_len)).1 5 = [])
    (hdu : (outAt (E.run ctx
        (evp_gcm_decrypt_calls cipher ciphertext ciphertext_len aad aad_len tagIn key iv iv_len)).1
          4).length =
      (readBytes ciphertext (toInt ciphertext_len).toNat).length)
    (hdf : (E.call (E.run ctx
        (evp_gcm_decrypt_calls cipher ciphertext ciphertext_len aad aad_len tagIn key iv iv_len)).2
          .EVP_DecryptFinal_ex).1.out = []) :
    (∀ v, (evp_gcm_encrypt E cipher plaintext plaintext_len aad aad_len key iv iv_len encOut
        tagOut).outcome = .returned v → v.1 = plaintext_len) ∧
    (allOk (E.run ctx
        (evp_gcm_encrypt_calls cipher plaintext plaintext_len aad aad_len key iv iv_len)).1 = true →
      ∃ v, (evp_gcm_encrypt E cipher plaintext plaintext_len aad aad_len key iv iv_len encOut
        tagOut).outcome = .returned v) ∧
    (∀ v, (evp_gcm_decrypt E cipher ciphertext ciphertext_len aad aad_len tagIn key iv iv_len
        decOut).outcome = .returned v → v.1 ≠ -1 → v.1 = ciphertext_len) ∧
    (allOk (E.run ctx
        (evp_gcm_decrypt_calls cipher ciphertext ciphertext_len aad aad_len tagIn key iv iv_len)).1 =
          true →
      (E.call (E.run ctx
        (evp_gcm_decrypt_calls cipher ciphertext ciphertext_len aad aad_len tagIn key iv iv_len)).2
          .EVP_DecryptFinal_ex).1.status > 0 →
      ∃ v, (evp_gcm_decrypt E cipher ciphertext ciphertext_len aad aad_len tagIn key iv iv_len
        decOut).outcome = .returned v ∧ v.1 ≠ -1) := by
  have hp1 : toInt (plaintext_len : Int) = plaintext_len := toInt_natCast _ hpl
  have hc1 : toInt (ciphertext_len : Int) = ciphertext_len := toInt_natCast _ hcl
  rw [readBytes_length, hp1, Int.toNat_ofNat] at heu
  rw [readBytes_length, hc1, Int.toNat_ofNat] at hdu
  refine ⟨?_, ?_, ?_, ?_⟩
  · intro v hv
    rcases evp_gcm_encrypt_run E cipher plaintext plaintext_len aad aad_len key iv iv_len encOut
        tagOut with ⟨_, hr⟩ | ⟨c0, _, _, hr⟩ | ⟨c0, hc0, _, hr⟩
    · rw [hr] at hv
      cases hv
    · rw [hr] at hv
      cases hv
    · rw [hnew] at hc0
      cases hc0
      rw [hr _ rfl] at hv
      simp only [Outcome.returned.injEq] at hv
      rw [← hv]
      simp only [heu, hef, List.length_nil, Nat.cast_zero, add_zero]
      exact hp1
  · intro hok
    rcases evp_gcm_encrypt_run E cipher plaintext plaintext_len aad aad_len key iv iv_len encOut
        tagOut with ⟨hn, _⟩ | ⟨c0, hc0, hbad, _⟩ | ⟨c0, _, _, hr⟩
    · rw [hnew] at hn
      cases hn
    · rw [hnew] at hc0
      cases hc0
      rw [hok] at hbad
      cases hbad
    · exact ⟨_, by rw [hr _ rfl]⟩
  · intro v hv hne
    rcases evp_gcm_decrypt_run E cipher ciphertext ciphertext_len aad aad_len tagIn key iv iv_len
        decOut with ⟨_, hr⟩ | ⟨c0, pre, c, post, s, _, _, _, hr⟩ | ⟨c0, hc0, _, hr⟩
    · rw [hr] at hv
      cases hv
    · rw [hr] at hv
      cases hv
    · rw [hnew] at hc0
      cases hc0
      rw [hr _ rfl _ rfl] at hv
      simp only [Outcome.returned.injEq] at hv
      rw [← hv] at hne ⊢
      simp only [hdu, hdf, List.length_nil, Nat.cast_zero, add_zero, hc1] at hne ⊢
      split_ifs at hne ⊢ with hpos
      · rfl
      · exact absurd rfl hne
  · intro hok hpos
    rcases evp_gcm_decrypt_run E cipher ciphertext ciphertext_len aad aad_len tagIn key iv iv_len
        decOut with ⟨hn, _⟩ | ⟨c0, pre, c, post, s, hc0, hcs, hs, hr⟩ | ⟨c0, hc0, _, hr⟩
    · rw [hnew] at hn
      cases hn
    · exfalso
      rw [hnew] at hc0
      cases hc0
      have hrun := checkedCalls_ok E _ ctx hok
      have hout := congrArg Run.outcome hr
      rw [evp_gcm_decrypt_eq] at hout
      simp [bind, Run.bind, EVP_CIPHER_CTX_new, hnew, hrun, EVP, EVP_CIPHER_CTX_free, pure,
        Run.pure] at hout
      split_ifs at hout
    · rw [hnew] at hc0
      cases hc0
      refine ⟨_, by rw [hr _ rfl _ rfl], ?_⟩
      simp only [if_pos hpos, hdu, hdf, List.length_nil, Nat.cast_zero, add_zero, hc1]
      omega


/-- C6 (counterexample): with a plaintext of 2^32 bytes and `plaintext_len = 2^32`, the
`int` handed to the library is 0; `toy` stores as many bytes as it is handed (none) and
none in the final call, and `evp_gcm_encrypt` returns 0, not `plaintext_len`. -/
theorem evp_gcm_encrypt_length_truncated :
    (List.replicate 4294967296 0).length = 4294967296 ∧
    ((evp_gcm_encrypt toy .aes_256_gcm (List.replicate 4294967296 0) 4294967296 [7] 1
        (List.replicate 32 1) (List.replicate 16 2) 16 (List.replicate 4294967296 0)
        (List.replicate 16 0)).value?.map (fun v => v.1)) = some 0 ∧
    (outAt (toy.run ToyCtx.fresh
        (evp_gcm_encrypt_calls .aes_256_gcm (List.replicate 4294967296 0) 4294967296 [7] 1
          (List.replicate 32 1) (List.replicate 16 2) 16)).1 4).length =
      (readBytes (List.replicate 4294967296 0) (toInt 4294967296).toNat).length ∧
    outAt (toy.run ToyCtx.fresh
        (evp_gcm_encrypt_calls .aes_256_gcm (List.replicate 4294967296 0) 4294967296 [7] 1
          (List.replicate 32 1) (List.replicate 16 2) 16)).1 5 = [] ∧
    (0 : Int) ≠ 4294967296 := by
  refine ⟨List.length_replicate _ _, ?_, ?_, ?_, ?_⟩ <;> decide

/-- C6 (witness): `toy` on a 4-byte plaintext and the 4-byte ciphertext it produces. -/
theorem gcm_lengths_preserved_witness :
    (∀ v, (evp_gcm_encrypt toy .aes_256_gcm [10, 20, 30, 40] 4 [7] 1 (List.replicate 32 1)
        (List.replicate 16 2) 16 [0, 0, 0, 0] (List.replicate 16 0)).outcome = .returned v →
      v.1 = (4 : Nat)) ∧
    (allOk (toy.run ToyCtx.fresh
        (evp_gcm_encrypt_calls .aes_256_gcm [10, 20, 30, 40] 4 [7] 1 (List.replicate 32 1)
          (List.replicate 16 2) 16)).1 = true →
      ∃ v, (evp_gcm_encrypt toy .aes_256_gcm [10, 20, 30, 40] 4 [7] 1 (List.replicate 32 1)
        (List.replicate 16 2) 16 [0, 0, 0, 0] (List.replicate 16 0)).outcome = .returned v) ∧
    (∀ v, (evp_gcm_decrypt toy .aes_256_gcm [13, 24, 35, 46] 4 [7] 1
        [129, 130, 131, 132, 133, 134, 135, 136, 137, 138, 139, 140, 141, 142, 143, 144]
        (List.replicate 32 1) (List.replicate 16 2) 16 [9, 9, 9, 9, 9]).outcome = .returned v →
      v.1 ≠ -1 → v.1 = (4 : Nat)) ∧
    (allOk (toy.run ToyCtx.fresh
        (evp_gcm_decrypt_calls .aes_256_gcm [13, 24, 35, 46] 4 [7] 1
          [129, 130, 131, 132, 133, 134, 135, 136, 137, 138, 139, 140, 141, 142, 143, 144]
          (List.replicate 32 1) (List.replicate 16 2) 16)).1 = true →
      (toy.call (toy.run ToyCtx.fresh
        (evp_gcm_decrypt_calls .aes_256_gcm [13, 24, 35, 46] 4 [7] 1
          [129, 130, 131, 132, 133, 134, 135, 136, 137, 138, 139, 140, 141, 142, 143, 144]
          (List.replicate 32 1) (List.replicate 16 2) 16)).2 .EVP_DecryptFinal_ex).1.status > 0 →
      ∃ v, (evp_gcm_decrypt toy .aes_256_gcm [13, 24, 35, 46] 4 [7] 1
        [129, 130, 131, 132, 133, 134, 135, 136, 137, 138, 139, 140, 141, 142, 143, 144]
        (List.replicate 32 1) (List.replicate 16 2) 16 [9, 9, 9, 9, 9]).outcome = .returned v ∧
        v.1 ≠ -1) :=
  gcm_lengths_preserved toy .aes_256_gcm [10, 20, 30, 40] 4 [13, 24, 35, 46] 4 [7] 1
    (List.replicate 32 1) (List.replicate 16 2) 16
    [129, 130, 131, 132, 133, 134, 135, 136, 137, 138, 139, 140, 141, 142, 143, 144]
    [0, 0, 0, 0] (List.replicate 16 0) [9, 9, 9, 9, 9] ToyCtx.fresh rfl (by decide) (by decide)
    (by decide) (by decide) (by decide) (by decide)

/-! ### Opening a session -/

theorem get_encrypt_ctx_value {σ : Type} (E : Engine σ) (cipher : Cipher) (key iv : List Nat) :
    (get_encrypt_ctx E cipher key iv).value? = E.session true cipher key iv := by
  rw [get_encrypt_ctx_eq]
  cases hnew : E.EVP_CIPHER_CTX_new with
  | none => simp [bind, Run.bind, EVP_CIPHER_CTX_new, hnew, handleErrors, Run.value?, Engine.session]
  | some ctx =>
    by_cases h : (E.call ctx (.EVP_EncryptInit_ex (some cipher) (some key) (some iv))).1.status = 1
    · simp [bind, Run.bind, EVP_CIPHER_CTX_new, hnew, Run.value?, Engine.session, checkedCalls,
        EVP, CheckError, h, pure, Run.pure]
    · simp [bind, Run.bind, EVP_CIPHER_CTX_new, hnew, Run.value?, Engine.session, checkedCalls,
        EVP, CheckError, h, handleErrors]

theorem get_decrypt_ctx_value {σ : Type} (E : Engine σ) (cipher : Cipher) (key iv : List Nat) :
    (get_decrypt_ctx E cipher key iv).value? = E.session false cipher key iv := by
  rw [get_decrypt_ctx_eq]
  cases hnew : E.EVP_CIPHER_CTX_new with
  | none => simp [bind, Run.bind, EVP_CIPHER_CTX_new, hnew, handleErrors, Run.value?, Engine.session]
  | some ctx =>
    by_cases h : (E.call ctx (.EVP_DecryptInit_ex (some cipher) (some key) (some iv))).1.status = 1
    · simp [bind, Run.bind, EVP_CIPHER_CTX_new, hnew, Run.value?, Engine.session, checkedCalls,
        EVP, CheckError, h, pure, Run.pure]
    · simp [bind, Run.bind, EVP_CIPHER_CTX_new, hnew, Run.value?, Engine.session, checkedCalls,
        EVP, CheckError, h, handleErrors]

theorem value?_eq_none_iff {α : Type} (r : Run α) : r.value? = none ↔ r.outcome = .aborted := by
  unfold Run.value?
  cases r.outcome <;> simp

/-- C7 (as amended): `get_encrypt_ctx` and `get_decrypt_ctx` receive the key as an array
without a length and make no check of their own: for a key array of any length they return
a context exactly when the allocation succeeds and the library's init call for that cipher,
key array and IV reports status 1, the context being the one that call leaves; in every
other case the run ends in `abort()`, not in an error return. -/
theorem get_ctx_returns_iff_init_ok {σ : Type} (E : Engine σ) (cipher : Cipher) (key iv : List Nat) :
    (get_encrypt_ctx E cipher key iv).value? = E.session true cipher key iv ∧
    (get_decrypt_ctx E cipher key iv).value? = E.session false cipher key iv ∧
    (E.session true cipher key iv = none → (get_encrypt_ctx E cipher key iv).outcome = .aborted) ∧
    (E.session false cipher key iv = none → (get_decrypt_ctx E cipher key iv).outcome = .aborted) := by
  refine ⟨get_encrypt_ctx_value E cipher key iv, get_decrypt_ctx_value E cipher key iv, ?_, ?_⟩
  · intro h
    rw [← value?_eq_none_iff, get_encrypt_ctx_value, h]
  · intro h
    rw [← value?_eq_none_iff, get_decrypt_ctx_value, h]

/-- C7 (counterexample): for AES-256-CBC and a key array of 33 bytes, `get_encrypt_ctx` and
`get_decrypt_ctx` return a context (initialised from the first 32 bytes); there is no
invalid-key-length failure. -/
theorem get_ctx_accepts_33_byte_key :
    (List.replicate 33 7).length = 33 ∧
    ((get_encrypt_ctx toy .aes_256_cbc (List.replicate 33 7) (List.replicate 16 0)).value?.map
      (fun c => c.key)) = some (some (List.replicate 32 7)) ∧
    ((get_decrypt_ctx toy .aes_256_cbc (List.replicate 33 7) (List.replicate 16 0)).value?.map
      (fun c => c.key)) = some (some (List.replicate 32 7)) := by
  decide


/-! ### The GCM round trip -/

theorem writeAt_zero (buf bytes : List Nat) : writeAt buf 0 bytes = bytes ++ buf.drop bytes.length := by
  simp [writeAt]

theorem evp_gcm_encrypt_calls_fit (cipher : Cipher) (pt aad key iv : List Nat) (iv_len : Nat)
    (haad : (aad.length : Int) ≤ INT_MAX) (hpt : (pt.length : Int) ≤ INT_MAX) :
    evp_gcm_encrypt_calls cipher pt pt.length aad aad.length key iv iv_len =
      gcmEncryptCalls cipher key iv (toInt iv_len) aad aad.length pt pt.length := by
  simp only [evp_gcm_encrypt_calls, toInt_natCast _ haad, toInt_natCast _ hpt, Int.toNat_ofNat,
    readBytes_self]

theorem evp_gcm_decrypt_calls_fit (cipher : Cipher) (ct aad tag key iv : List Nat) (n iv_len : Nat)
    (haad : (aad.length : Int) ≤ INT_MAX) (hn : (n : Int) ≤ INT_MAX) :
    evp_gcm_decrypt_calls cipher ct n aad aad.length tag key iv iv_len =
      gcmDecryptCalls cipher key iv (toInt iv_len) aad aad.length (readBytes ct n)
        (readBytes ct n).length (readBytes tag 16) := by
  simp only [evp_gcm_decrypt_calls, toInt_natCast _ haad, toInt_natCast _ hn, Int.toNat_ofNat,
    readBytes_self, readBytes_length]

/-- C2 (as amended): for a plaintext, an AAD and a ciphertext of at most `INT_MAX` bytes, and
a library that on this key, IV and AAD encrypts `pt` to a ciphertext `c` with a 16-byte tag
`t` and accepts `c` with `t`, giving back `pt`: `evp_gcm_encrypt` returns `n` with the
ciphertext and tag stored, and `evp_gcm_decrypt` on those arrays, with length `n` and the
same tag, returns `|pt|` (not -1) and leaves `pt` in the first `|pt|` bytes of its output. -/
theorem gcm_round_trip {σ : Type} (E : Engine σ) (cipher : Cipher) (key iv : List Nat)
    (iv_len : Nat) (aad pt ct0 tag0 out0 : List Nat) (ctx : σ) (c t : List Nat)
    (hnew : E.EVP_CIPHER_CTX_new = some ctx)
    (hseal : E.gcmSeal ctx cipher key iv (toInt iv_len) aad pt = some (c, t))
    (ht : t.length = 16)
    (hopen : E.gcmOpen ctx cipher key iv (toInt iv_len) aad c t = .accepted pt)
    (haad : (aad.length : Int) ≤ INT_MAX) (hpt : (pt.length : Int) ≤ INT_MAX)
    (hc : (c.length : Int) ≤ INT_MAX) :
    ∃ n ct tag out,
      (evp_gcm_encrypt E cipher pt pt.length aad aad.length key iv iv_len ct0 tag0).outcome =
        .returned (n, ct, tag) ∧
      n = c.length ∧ ct.take c.length = c ∧ tag.take 16 = t ∧
      (evp_gcm_decrypt E cipher ct (toSizeT n) aad aad.length tag key iv iv_len out0).outcome =
        .returned ((pt.length : Int), out) ∧
      (pt.length : Int) ≠ -1 ∧ out.take pt.length = pt := by
  -- what the library did on the encrypt side
  unfold Engine.gcmSeal at hseal
  simp only [] at hseal
  split_ifs at hseal with hok
  simp only [Option.some.injEq, Prod.mk.injEq] at hseal
  obtain ⟨hcdef, htdef⟩ := hseal
  -- what the library does on the decrypt side
  unfold Engine.gcmOpen at hopen
  simp only [] at hopen
  split_ifs at hopen with hok2 hpos
  simp only [Opened.accepted.injEq] at hopen
  -- the encrypt wrapper
  have hcalls := evp_gcm_encrypt_calls_fit cipher pt aad key iv iv_len haad hpt
  rcases evp_gcm_encrypt_run E cipher pt pt.length aad aad.length key iv iv_len ct0 tag0 with
    ⟨hn, _⟩ | ⟨c0, hc0, hbad, _⟩ | ⟨c0, hc0, _, hr⟩
  · rw [hnew] at hn
    cases hn
  · rw [hnew] at hc0
    cases hc0
    rw [hcalls, hok] at hbad
    cases hbad
  rw [hnew] at hc0
  cases hc0
  have hr := hr _ rfl
  rw [hcalls] at hr
  have hlen : ((outAt (E.run ctx (gcmEncryptCalls cipher key iv (toInt iv_len) aad aad.length pt
      pt.length)).1 4).length : Int) + (outAt (E.run ctx (gcmEncryptCalls cipher key iv
      (toInt iv_len) aad aad.length pt pt.length)).1 5).length = (c.length : Int) := by
    rw [← hcdef, List.length_append]
    push_cast
    rfl
  have hct : writeAt (writeAt ct0 0 (outAt (E.run ctx (gcmEncryptCalls cipher key iv (toInt iv_len)
      aad aad.length pt pt.length)).1 4)) (outAt (E.run ctx (gcmEncryptCalls cipher key iv
      (toInt iv_len) aad aad.length pt pt.length)).1 4).length (outAt (E.run ctx (gcmEncryptCalls
      cipher key iv (toInt iv_len) aad aad.length pt pt.length)).1 5) =
      c ++ ct0.drop c.length := by
    rw [writeAt_twice, hcdef, ← List.length_append, hcdef]
  rw [hlen, hct, htdef, writeAt_zero, toInt_natCast _ hc] at hr
  refine ⟨c.length, c ++ ct0.drop c.length, t ++ tag0.drop t.length, pt ++ out0.drop pt.length,
    by rw [hr], rfl, by simp, by simp [← ht], ?_, by omega, by simp⟩
  · -- the decrypt wrapper
    have hcalls2 : evp_gcm_decrypt_calls cipher (c ++ ct0.drop c.length) (toSizeT (c.length : Int))
        aad aad.length (t ++ tag0.drop t.length) key iv iv_len =
        gcmDecryptCalls cipher key iv (toInt iv_len) aad aad.length c c.length t := by
      rw [toSizeT_natCast_fits _ hc, evp_gcm_decrypt_calls_fit _ _ _ _ _ _ _ _ haad hc,
        readBytes_append_length, ← ht, readBytes_append_length]
    rcases evp_gcm_decrypt_run E cipher (c ++ ct0.drop c.length) (toSizeT (c.length : Int)) aad
        aad.length (t ++ tag0.drop t.length) key iv iv_len out0 with
      ⟨hn, _⟩ | ⟨c0, pre, d, post, s, hc0, hcs, hs, hr2⟩ | ⟨c0, hc0, _, hr2⟩
    · rw [hnew] at hn
      cases hn
    · exfalso
      rw [hnew] at hc0
      cases hc0
      have hrun := checkedCalls_ok E _ ctx hok2
      have hout := congrArg Run.outcome hr2
      rw [evp_gcm_decrypt_eq, hcalls2] at hout
      simp [bind, Run.bind, EVP_CIPHER_CTX_new, hnew, hrun, EVP, EVP_CIPHER_CTX_free, pure,
        Run.pure] at hout
      split_ifs at hout
    · rw [hnew] at hc0
      cases hc0
      have hr2 := hr2 _ rfl _ rfl
      rw [hcalls2] at hr2
      rw [hr2, if_pos hpos]
      have hlen2 : ((outAt (E.run ctx (gcmDecryptCalls cipher key iv (toInt iv_len) aad aad.length
          c c.length t)).1 4).length : Int) + (E.call (E.run ctx (gcmDecryptCalls cipher key iv
          (toInt iv_len) aad aad.length c c.length t)).2 .EVP_DecryptFinal_ex).1.out.length =
          (pt.length : Int) := by
        rw [← hopen, List.length_append]
        push_cast
        rfl
      rw [hlen2, toInt_natCast _ hpt, writeAt_twice, hopen, ← List.length_append, hopen]


/-- C2 (witness): the vectors of `aes_gcm_sample` (zero key, IV `0, 1, …, 14, 0`, 16 zero
bytes of AAD, 32 zero bytes of plaintext) on `toy`. -/
theorem gcm_round_trip_witness :
    ∃ n ct tag out,
      (evp_gcm_encrypt toy .aes_256_gcm (List.replicate 32 0) (List.replicate 32 0).length
        (List.replicate 16 0) (List.replicate 16 0).length (List.replicate 32 0)
        [0, 1, 2, 3, 4, 5, 6, 7, 8, 9, 10, 11, 12, 13, 14, 0] 16 (List.replicate 32 0)
        (List.replicate 16 0)).outcome = .returned (n, ct, tag) ∧
      n = [0, 2, 4, 6, 8, 10, 12, 14, 16, 18, 20, 22, 24, 26, 28, 15, 16, 18, 20, 22, 24, 26, 28, 30,
        32, 34, 36, 38, 40, 42, 44, 31].length ∧
      ct.take [0, 2, 4, 6, 8, 10, 12, 14, 16, 18, 20, 22, 24, 26, 28, 15, 16, 18, 20, 22, 24, 26, 28,
        30, 32, 34, 36, 38, 40, 42, 44, 31].length =
        [0, 2, 4, 6, 8, 10, 12, 14, 16, 18, 20, 22, 24, 26, 28, 15, 16, 18, 20, 22, 24, 26, 28, 30,
          32, 34, 36, 38, 40, 42, 44, 31] ∧
      tag.take 16 = [246, 248, 250, 252, 254, 0, 2, 4, 6, 8, 10, 12, 14, 16, 18, 5] ∧
      (evp_gcm_decrypt toy .aes_256_gcm ct (toSizeT n) (List.replicate 16 0)
        (List.replicate 16 0).length tag (List.replicate 32 0)
        [0, 1, 2, 3, 4, 5, 6, 7, 8, 9, 10, 11, 12, 13, 14, 0] 16 (List.replicate 32 0)).outcome =
        .returned (((List.replicate 32 0).length : Int), out) ∧
      ((List.replicate 32 0).length : Int) ≠ -1 ∧
      out.take (List.replicate 32 0).length = List.replicate 32 0 :=
  gcm_round_trip toy .aes_256_gcm (List.replicate 32 0)
    [0, 1, 2, 3, 4, 5, 6, 7, 8, 9, 10, 11, 12, 13, 14, 0] 16 (List.replicate 16 0)
    (List.replicate 32 0) (List.replicate 32 0) (List.replicate 16 0) (List.replicate 32 0)
    ToyCtx.fresh
    [0, 2, 4, 6, 8, 10, 12, 14, 16, 18, 20, 22, 24, 26, 28, 15, 16, 18, 20, 22, 24, 26, 28, 30,
      32, 34, 36, 38, 40, 42, 44, 31]
    [246, 248, 250, 252, 254, 0, 2, 4, 6, 8, 10, 12, 14, 16, 18, 5]
    rfl (by decide) (by decide) (by decide) (by decide) (by decide) (by decide)

/-- C2 (counterexample): a plaintext of 2^32 bytes. `evp_gcm_encrypt` hands the library an
`int` length of 0 and returns `n = 0`; `evp_gcm_decrypt` on its output with that `n` and the
same tag returns 0, which is not the plaintext length 2^32. -/
theorem gcm_round_trip_fails_beyond_int :
    (List.replicate 4294967296 0).length = 4294967296 ∧
    ((evp_gcm_encrypt toy .aes_256_gcm (List.replicate 4294967296 0) 4294967296 [7] 1
        (List.replicate 32 1) (List.replicate 16 2) 16 (List.replicate 4294967296 0)
        (List.replicate 16 0) >>= fun e =>
      evp_gcm_decrypt toy .aes_256_gcm e.2.1 (toSizeT e.1) [7] 1 e.2.2
        (List.replicate 32 1) (List.replicate 16 2) 16
        (List.replicate 4294967296 0)).value?.map (fun v => v.1)) = some 0 ∧
    (0 : Int) ≠ 4294967296 := by
  refine ⟨List.length_replicate _ _, ?_, ?_⟩ <;> decide


/-! ### Tampering -/

theorem bind_outcome {α β : Type} (r : Run α) (f : α → Run β) (a : α)
    (h : r.outcome = .returned a) : (r >>= f).outcome = (f a).outcome := by
  simp [bind, Run.bind, h]

theorem outcome_of_value? {α : Type} (r : Run α) (a : α) (h : r.value? = some a) :
    r.outcome = .returned a := by
  unfold Run.value? at h
  cases ho : r.outcome with
  | aborted => rw [ho] at h; cases h
  | returned v => rw [ho] at h; cases h; rfl

theorem evp_encrypt_returns {σ : Type} (E : Engine σ) (buf pt c : List Nat) (ctx : σ)
    (hall : E.encryptAll ctx pt = some c)
    (hpt : (pt.length : Int) ≤ INT_MAX) (hc : (c.length : Int) ≤ INT_MAX) :
    (evp_encrypt E buf pt pt.length ctx).outcome = .returned (c.length, c ++ buf.drop c.length) := by
  unfold Engine.encryptAll at hall
  simp only [] at hall
  split_ifs at hall with hok
  simp only [Option.some.injEq] at hall
  rw [evp_encrypt_eq, toInt_natCast _ hpt, Int.toNat_ofNat, readBytes_self,
    checkedCalls_ok E _ ctx hok]
  simp only [bind, Run.bind, EVP_CIPHER_CTX_free, pure, Run.pure, Outcome.returned.injEq,
    Prod.mk.injEq]
  have h0 := outAt_fits (E.run ctx (encryptCalls pt pt.length)).1 0
  have h1 := outAt_fits (E.run ctx (encryptCalls pt pt.length)).1 1
  constructor
  · have hl : (outAt (E.run ctx (encryptCalls pt pt.length)).1 0).length +
        (outAt (E.run ctx (encryptCalls pt pt.length)).1 1).length = c.length := by
      rw [← hall, List.length_append]
    rw [toSizeT_natCast_fits _ h0, toSizeT_natCast_fits _ h1, hl]
    unfold INT_MAX at hc
    omega
  · rw [writeAt_twice, hall, ← List.length_append, hall]

theorem evp_decrypt_returns {σ : Type} (E : Engine σ) (buf c rest p : List Nat) (ctx : σ)
    (hall : E.decryptAll ctx c = some p)
    (hc : (c.length : Int) ≤ INT_MAX) (hp : (p.length : Int) ≤ INT_MAX) :
    (evp_decrypt E buf (c ++ rest) c.length ctx).outcome =
      .returned (p.length, p ++ buf.drop p.length) := by
  unfold Engine.decryptAll at hall
  simp only [] at hall
  split_ifs at hall with hok
  simp only [Option.some.injEq] at hall
  rw [evp_decrypt_eq, toInt_natCast _ hc, Int.toNat_ofNat, readBytes_append_length,
    checkedCalls_ok E _ ctx hok]
  simp only [bind, Run.bind, EVP_CIPHER_CTX_free, pure, Run.pure, Outcome.returned.injEq,
    Prod.mk.injEq]
  have h0 := outAt_fits (E.run ctx (decryptCalls c c.length)).1 0
  have h1 := outAt_fits (E.run ctx (decryptCalls c c.length)).1 1
  constructor
  · have hl : (outAt (E.run ctx (decryptCalls c c.length)).1 0).length +
        (outAt (E.run ctx (decryptCalls c c.length)).1 1).length = p.length := by
      rw [← hall, List.length_append]
    rw [toSizeT_natCast_fits _ h0, toSizeT_natCast_fits _ h1, hl]
    unfold INT_MAX at hp
    omega
  · rw [writeAt_twice, hall, ← List.length_append, hall]

/-- C1 (as amended): for every cipher, key and IV on which the library opens an encrypt and
a decrypt session, and every plaintext `pt` of at most `INT_MAX` bytes that the library
encrypts (update and final) to a ciphertext `c` of at most `INT_MAX` bytes which its
decrypt update and final turn back into `pt`: the sample's sequence `get_encrypt_ctx`,
`get_decrypt_ctx`, `evp_encrypt(ct, pt, |pt|)`, `evp_decrypt(out, ct, enclen)` returns
with `enclen = |c|`, `declen = |pt|`, and the first `declen` bytes of `out` equal to `pt`. -/
theorem stream_round_trip {σ : Type} (E : Engine σ) (cipher : Cipher)
    (key iv pt encrypted decrypted : List Nat) (ce cd : σ) (c : List Nat)
    (he : E.session true cipher key iv = some ce) (hd : E.session false cipher key iv = some cd)
    (henc : E.encryptAll ce pt = some c) (hdec : E.decryptAll cd c = some pt)
    (hpt : (pt.length : Int) ≤ INT_MAX) (hc : (c.length : Int) ≤ INT_MAX) :
    ∃ enc dec,
      (aes_evp_sample E cipher key iv pt pt.length encrypted decrypted).outcome =
        .returned ((c.length : Int), enc, (pt.length : Int), dec) ∧
      enc.take c.length = c ∧ dec.take pt.length = pt := by
  have h1 := outcome_of_value? _ _ ((get_encrypt_ctx_value E cipher key iv).trans he)
  have h2 := outcome_of_value? _ _ ((get_decrypt_ctx_value E cipher key iv).trans hd)
  have h3 := evp_encrypt_returns E encrypted pt c ce henc hpt hc
  have h4 := evp_decrypt_returns E decrypted c (encrypted.drop c.length) pt cd hdec hc hpt
  refine ⟨c ++ encrypted.drop c.length, pt ++ decrypted.drop pt.length, ?_, by simp, by simp⟩
  unfold aes_evp_sample
  rw [bind_outcome _ _ _ h1, bind_outcome _ _ _ h2, bind_outcome _ _ _ h3]
  simp only [toInt_natCast _ hc, toSizeT_natCast_fits _ hc]
  rw [bind_outcome _ _ _ h4]
  simp only [toInt_natCast _ hpt]
  rfl


/-- C1 (witness): AES-256-CBC on `toy` with the sample's non-random vectors (key 0..31,
IV 32..47, plaintext 48..79); the ciphertext has 48 bytes, one block of padding included. -/
theorem stream_round_trip_witness :
    ∃ enc dec,
      (aes_evp_sample toy .aes_256_cbc (List.range 32) ((List.range 16).map (· + 32))
        ((List.range 32).map (· + 48)) ((List.range 32).map (· + 48)).length
        (List.replicate 48 0) (List.replicate 48 0)).outcome =
        .returned (([80, 84, 88, 92, 96, 100, 104, 108, 112, 116, 120, 124, 128, 132, 136, 140, 128, 132, 136, 140, 144,
      148, 152, 156, 160, 164, 168, 172, 176, 180, 184, 188, 80, 83, 86, 89, 92, 95, 98, 101, 104, 107, 110,
      113, 116, 119, 122, 125].length : Int), enc, (((List.range 32).map (· + 48)).length : Int), dec) ∧
      enc.take [80, 84, 88, 92, 96, 100, 104, 108, 112, 116, 120, 124, 128, 132, 136, 140, 128, 132, 136, 140, 144,
      148, 152, 156, 160, 164, 168, 172, 176, 180, 184, 188, 80, 83, 86, 89, 92, 95, 98, 101, 104, 107, 110,
      113, 116, 119, 122, 125].length = [80, 84, 88, 92, 96, 100, 104, 108, 112, 116, 120, 124, 128, 132, 136, 140, 128, 132, 136, 140, 144,
      148, 152, 156, 160, 164, 168, 172, 176, 180, 184, 188, 80, 83, 86, 89, 92, 95, 98, 101, 104, 107, 110,
      113, 116, 119, 122, 125] ∧
      dec.take ((List.range 32).map (· + 48)).length = (List.range 32).map (· + 48) :=
  stream_round_trip toy .aes_256_cbc (List.range 32) ((List.range 16).map (· + 32))
    ((List.range 32).map (· + 48)) (List.replicate 48 0) (List.replicate 48 0)
    (toy.call ToyCtx.fresh (.EVP_EncryptInit_ex (some .aes_256_cbc) (some (List.range 32))
      (some ((List.range 16).map (· + 32))))).2
    (toy.call ToyCtx.fresh (.EVP_DecryptInit_ex (some .aes_256_cbc) (some (List.range 32))
      (some ((List.range 16).map (· + 32))))).2
    [80, 84, 88, 92, 96, 100, 104, 108, 112, 116, 120, 124, 128, 132, 136, 140, 128, 132, 136, 140, 144,
      148, 152, 156, 160, 164, 168, 172, 176, 180, 184, 188, 80, 83, 86, 89, 92, 95, 98, 101, 104, 107, 110,
      113, 116, 119, 122, 125] (by decide) (by decide) (by decide) (by decide) (by decide) (by decide)

/-- C1 (counterexample): a plaintext of 2^32 bytes with the sample's key and IV. The `int`
length handed to the library is 0, so in [80, 84, 88, 92, 96, 100, 104, 108, 112, 116, 120, 124, 128, 132, 136, 140, 128, 132, 136, 140, 144,
      148, 152, 156, 160, 164, 168, 172, 176, 180, 184, 188, 80, 83, 86, 89, 92, 95, 98, 101, 104, 107, 110,
      113, 116, 119, 122, 125]R mode `enclen = 0` and `declen = 0`, and in CBC
mode `enclen = 16` (one block of padding) and `declen = 0`: `declen` is not `|pt| = 2^32`. -/
theorem stream_round_trip_fails_beyond_int :
    (List.replicate 4294967296 0).length = 4294967296 ∧
    ((aes_evp_sample toy .aes_256_ctr (List.range 32) ((List.range 16).map (· + 32))
        (List.replicate 4294967296 0) 4294967296 (List.replicate 4294967312 0)
        (List.replicate 4294967312 0)).value?.map (fun v => (v.1, v.2.2.1))) = some (0, 0) ∧
    ((aes_evp_sample toy .aes_256_cbc (List.range 32) ((List.range 16).map (· + 32))
        (List.replicate 4294967296 0) 4294967296 (List.replicate 4294967312 0)
        (List.replicate 4294967312 0)).value?.map (fun v => (v.1, v.2.2.1))) = some (16, 0) ∧
    (0 : Int) ≠ 4294967296 := by
  refine ⟨List.length_replicate _ _, ?_, ?_, ?_⟩ <;> decide

end OpensslEvp
